import Mathlib

/-!
Verification of the EchoMind agent-orchestration core.

This file is a shallow embedding, in Lean 4, of the Python modules
`app/agents/context.py`, `app/agents/switching.py`, `app/agents/memory.py`
and the parts of `app/agents/protocol.py` they use, together with theorems
settling the specification claims about them.

Modelling conventions:
- Python values that flow through `Dict[str, Any]` payloads are embedded as
  the inductive type `JVal` below; Python `dict`s become association lists
  that keep insertion order, exactly as CPython dicts do.
- A raised exception is modelled as `Except.error` carrying a `PyErr`;
  `Except.ok` is a normal return.  A function whose Python source cannot
  raise is embedded as a plain (total) function.
- `datetime` values are embedded as integer timestamps (seconds); the
  `isoformat`/`fromisoformat` round trip is modelled by decimal printing and
  parsing of that integer, which preserves the only facts the code relies
  on (injectivity and round-tripping).
- Python `float` arithmetic on the small dyadic constants used by the code
  (`0.75`, `0.25`) is exact, so it is embedded as exact arithmetic.
- `re` character classes are embedded over ASCII: `\w` is alphanumeric or
  underscore, `\s` is the ASCII whitespace set.
-/

set_option maxRecDepth 4000

/-- Embedded Python value (JSON-like payloads travelling in `Dict[str, Any]`).
Dicts are association lists in insertion order, as in CPython. -/
inductive JVal where
  | null
  | bool (b : Bool)
  | int (n : Int)
  | num (q : ℚ)
  | str (s : String)
  | list (l : List JVal)
  | dict (d : List (String × JVal))

/-- Embedded Python exception. -/
inductive PyErr where
  | valueError (msg : String)
  | typeError
  | attributeError
  | keyError
deriving DecidableEq, Repr

/-- Truthiness of an embedded Python value (`bool(v)`). -/
def pyTruthy : JVal → Bool
  | .null => false
  | .bool b => b
  | .int n => n != 0
  | .num q => q != 0
  | .str s => !s.isEmpty
  | .list l => !l.isEmpty
  | .dict d => !d.isEmpty

/-- Boolean infix test on character lists (Python substring containment). -/
def infixOfList (needle : List Char) : List Char → Bool
  | [] => needle.isEmpty
  | c :: cs => needle.isPrefixOf (c :: cs) || infixOfList needle cs

/-- Python `part in current` where `part` is a string: key test on dicts,
element equality on lists, substring test on strings, `TypeError` otherwise. -/
def pyContains (current : JVal) (part : String) : Except PyErr Bool :=
  match current with
  | .dict d => .ok (d.lookup part).isSome
  | .list l => .ok (l.any fun v => match v with | .str s => s == part | _ => false)
  | .str s => .ok (infixOfList part.toList s.toList)
  | _ => .error .typeError

/-- Python `current[part]` with a string subscript: dict access succeeds or
raises `KeyError`; list and string subscripts with a string raise `TypeError`,
as does subscripting a non-container. -/
def pyGetItem (current : JVal) (part : String) : Except PyErr JVal :=
  match current with
  | .dict d =>
    match d.lookup part with
    | some v => .ok v
    | none => .error .keyError
  | _ => .error .typeError

/-- Replace the value at the first occurrence of a key in an association
list, or append the binding if the key is absent (CPython `d[k] = v`). -/
def assocSet : List (String × JVal) → String → JVal → List (String × JVal)
  | [], k, v => [(k, v)]
  | (k', v') :: rest, k, v =>
    if k' == k then (k', v) :: rest else (k', v') :: assocSet rest k v

/-- Python `d[k] = v` on an embedded value: in-place update on dicts,
`TypeError` on anything else when the key is a string. -/
def pySetItem (current : JVal) (k : String) (v : JVal) : Except PyErr JVal :=
  match current with
  | .dict d => .ok (.dict (assocSet d k v))
  | _ => .error .typeError

/-- Python `str.lower()` (ASCII model, via the character list). -/
def strLower (s : String) : String := String.mk (s.data.map Char.toLower)

/-- Helper for `splitOnDot`: accumulate the current segment (reversed). -/
def splitOnDotAux (acc : List Char) : List Char → List String
  | [] => [String.mk acc.reverse]
  | c :: cs =>
    if c = '.' then String.mk acc.reverse :: splitOnDotAux [] cs
    else splitOnDotAux (c :: acc) cs

/-- Python `path.split('.')` (empty string yields `[""]`). -/
def splitOnDot (s : String) : List String := splitOnDotAux [] s.data

/-! ## Embedding of `app/agents/context.py` -/

/-- Table `TOKEN_LIMITS` from `context.py`. -/
def TOKEN_LIMITS : List (String × Nat) :=
  [("gpt-3.5-turbo", 4096), ("gpt-3.5-turbo-16k", 16384), ("gpt-4", 8192),
   ("gpt-4-32k", 32768), ("gpt-4-0613", 8192), ("gpt-4-0125-preview", 128000),
   ("claude-2", 100000), ("claude-instant", 100000)]

/-- Constant `DEFAULT_TOKEN_LIMIT` from `context.py`. -/
def DEFAULT_TOKEN_LIMIT : Nat := 4096

/-- A chat message as consumed by `ContextWindowManager`: a dict whose
`role`/`content`/`name` entries may each be absent (`Option`); `dict.get`
with a default is modelled by `Option.getD`. -/
structure ChatMessage where
  role : Option String
  content : Option String
  name : Option String
deriving DecidableEq, Repr

/-- Membership in the `\w` class of Python `re` (ASCII model). -/
def isWordChar (c : Char) : Bool := c.isAlphanum || c == '_'

/-- Membership in the `\s` class of Python `re` (ASCII model). -/
def isSpaceChar (c : Char) : Bool :=
  c == ' ' || c == '\t' || c == '\n' || c == '\r' ||
  c == Char.ofNat 11 || c == Char.ofNat 12

/-- Number of maximal runs of characters satisfying `p`, given whether the
previous character satisfied `p`. -/
def countRunsAux (p : Char → Bool) : Bool → List Char → Nat
  | _, [] => 0
  | prevIn, c :: cs =>
    if p c then (if prevIn then 0 else 1) + countRunsAux p true cs
    else countRunsAux p false cs

/-- Number of maximal runs of characters satisfying `p` in a list. -/
def countRuns (p : Char → Bool) (l : List Char) : Nat := countRunsAux p false l

/-- Count of `re.findall(r'\b\w+\b', text)`: maximal word-character runs. -/
def wordCount (text : String) : Nat := countRuns isWordChar text.toList

/-- Count of `re.findall(r'[^\w\s]', text)`: characters in neither class. -/
def punctCount (text : String) : Nat :=
  (text.toList.filter fun c => !isWordChar c && !isSpaceChar c).length

/-- Count of `re.findall(r'\s+', text)`: maximal whitespace runs. -/
def wsRunCount (text : String) : Nat := countRuns isSpaceChar text.toList

/-- `TokenCounter.estimate_tokens`.  The source computes
`int(words * 0.75 + punctuation + whitespace * 0.25)`; the float arithmetic
is exact on these dyadic constants and `int` truncates the nonnegative
result downward, so the value is `(3*words + 4*punctuation + whitespace) / 4`
in natural division. -/
def estimate_tokens (text : String) : Nat :=
  if text.isEmpty then 0
  else (3 * wordCount text + 4 * punctCount text + wsRunCount text) / 4

/-- `TokenCounter.estimate_messages_tokens`: 4 tokens per message plus, for
each message, the content estimate, `len(role) // 4`, and `len(name) // 4`
when the name is truthy. -/
def estimate_messages_tokens (messages : List ChatMessage) : Nat :=
  messages.foldl
    (fun acc m =>
      acc + estimate_tokens (m.content.getD "") + (m.role.getD "").length / 4 +
        (if (m.name.getD "") ≠ "" then (m.name.getD "").length / 4 else 0))
    (messages.length * 4)

/-- State of a `ContextWindowManager` after `__init__`. -/
structure ContextWindowManager where
  model_name : String
  max_tokens : Nat
  buffer_tokens : Nat
  effective_limit : Int
deriving DecidableEq, Repr

/-- `ContextWindowManager.__init__`.  `max_tokens or TOKEN_LIMITS.get(...)`
falls back to the table (then the default) when the argument is `None` or
the falsy `0`; `effective_limit = max_tokens - buffer_tokens` is computed
without any check and may be negative. -/
def mkContextWindowManager (model_name : String) (max_tokens : Option Nat)
    (buffer_tokens : Nat) : ContextWindowManager :=
  let tableLimit := (TOKEN_LIMITS.lookup model_name).getD DEFAULT_TOKEN_LIMIT
  let resolved :=
    match max_tokens with
    | some m => if m == 0 then tableLimit else m
    | none => tableLimit
  { model_name := model_name, max_tokens := resolved,
    buffer_tokens := buffer_tokens,
    effective_limit := (resolved : Int) - (buffer_tokens : Int) }

/-- Truthy-guarded membership test `important_indices and i in important_indices`. -/
def is_important (important_indices : Option (List Nat)) (i : Nat) : Bool :=
  match important_indices with
  | some l => !l.isEmpty && l.contains i
  | none => false

/-- The newest-first user/assistant interleaving built by the `while` loop in
`fit_to_context_window` (one user message, then one assistant message, per
iteration, from reversed lists). -/
def interleave_pairs : List ChatMessage → List ChatMessage → List ChatMessage
  | [], ys => ys
  | x :: xs, [] => x :: xs
  | x :: xs, y :: ys => x :: y :: interleave_pairs xs ys

/-- Greedy token-budgeted selection with `break`: messages are appended while
`tokens_used + cost` stays within the limit; the first overflow stops the
loop.  Returns the selected messages and the final `tokens_used`. -/
def greedy_add (limit : Int) : List ChatMessage → Int → List ChatMessage × Int
  | [], tokens => ([], tokens)
  | m :: ms, tokens =>
    let cost : Int := (estimate_tokens (m.content.getD "") : Int) + 4
    if tokens + cost ≤ limit then
      let (rest, tokens') := greedy_add limit ms (tokens + cost)
      (m :: rest, tokens')
    else ([], tokens)

/-- The `original_order` list built by the trimming branch of
`fit_to_context_window`: bucket the messages, seed with system and important
messages, greedily add interleaved user/assistant pairs then other messages,
and re-walk the input re-inserting system/important messages at their
positions followed by the selected messages in original order (membership
tested by value). -/
def fit_reconstruct (cwm : ContextWindowManager) (messages : List ChatMessage)
    (include_system_prompt : Bool) (important_indices : Option (List Nat)) :
    List ChatMessage :=
  let idxMsgs := messages.enum
  let important_messages :=
    (idxMsgs.filter fun p => is_important important_indices p.1).map Prod.snd
  let roleOf : ChatMessage → String := fun m => m.role.getD ""
  let notImp : Nat × ChatMessage → Bool :=
    fun p => !is_important important_indices p.1
  let system_messages :=
    (idxMsgs.filter fun p => notImp p && (roleOf p.2 == "system")).map Prod.snd
  let user_messages :=
    (idxMsgs.filter fun p => notImp p && (roleOf p.2 == "user")).map Prod.snd
  let assistant_messages :=
    (idxMsgs.filter fun p => notImp p && (roleOf p.2 == "assistant")).map Prod.snd
  let other_messages :=
    (idxMsgs.filter fun p =>
      notImp p && !(roleOf p.2 == "system") && !(roleOf p.2 == "user") &&
        !(roleOf p.2 == "assistant")).map Prod.snd
  let result :=
    (if include_system_prompt then system_messages else []) ++ important_messages
  let tokens_used : Int := (estimate_messages_tokens result : Int)
  let paired_messages :=
    interleave_pairs user_messages.reverse assistant_messages.reverse
  let (remaining₁, tokens₁) :=
    greedy_add cwm.effective_limit paired_messages tokens_used
  let (remaining₂, _) := greedy_add cwm.effective_limit other_messages tokens₁
  let remaining := remaining₁ ++ remaining₂
  let processed : Nat × ChatMessage → Bool := fun p =>
    (roleOf p.2 == "system" && include_system_prompt) ||
      is_important important_indices p.1
  let firstPart := (idxMsgs.filter processed).map Prod.snd
  let secondPart :=
    (idxMsgs.filter fun p => !processed p && remaining.contains p.2).map Prod.snd
  firstPart ++ secondPart

/-- `ContextWindowManager._create_history_summary`. -/
def create_history_summary (messages : List ChatMessage) : String :=
  let points := messages.filterMap fun m =>
    let role := m.role.getD ""
    let content := m.content.getD ""
    if role == "system" then none
    else
      let snippet := if content.length > 100 then content.take 100 ++ "..." else content
      some (role ++ ": " ++ snippet)
  let summary := "This conversation covered: " ++ String.intercalate "; " (points.take 3)
  summary ++
    (if points.length > 3 then " (plus " ++ toString (points.length - 3) ++ " more messages)"
     else "")

/-- The synthesized summary message appended in the fallback tier of
`fit_to_context_window` (a fresh dict with only `role` and `content` keys). -/
def summary_fallback_message (original_order : List ChatMessage) : ChatMessage :=
  { role := some "system",
    content := some ("Earlier conversation summary: " ++ create_history_summary original_order),
    name := none }

/-- `ContextWindowManager.fit_to_context_window`. -/
def fit_to_context_window (cwm : ContextWindowManager) (messages : List ChatMessage)
    (include_system_prompt : Bool) (important_indices : Option (List Nat)) :
    List ChatMessage :=
  let estimated_tokens : Int := (estimate_messages_tokens messages : Int)
  if estimated_tokens ≤ cwm.effective_limit then messages
  else
    let original_order := fit_reconstruct cwm messages include_system_prompt important_indices
    let final_tokens : Int := (estimate_messages_tokens original_order : Int)
    if final_tokens > cwm.effective_limit then
      let preserved_count := min 4 original_order.length
      let new_messages :=
        original_order.filter (fun m => m.role.getD "" == "system") ++
          [summary_fallback_message original_order] ++
          original_order.drop (original_order.length - preserved_count)
      new_messages
    else original_order

/-! ## Embedding of `app/agents/protocol.py` (the parts used by the claims) -/

/-- Enum `MessageType`. -/
inductive MessageType where
  | query | response | handoff | memory_access | system | user | assistant
deriving DecidableEq, Repr

/-- Display string of a `MessageType` as interpolated by the source's
f-strings (`str` of the enum member). -/
def messageTypeStr : MessageType → String
  | .query => "MessageType.QUERY"
  | .response => "MessageType.RESPONSE"
  | .handoff => "MessageType.HANDOFF"
  | .memory_access => "MessageType.MEMORY_ACCESS"
  | .system => "MessageType.SYSTEM"
  | .user => "MessageType.USER"
  | .assistant => "MessageType.ASSISTANT"

/-- Enum `MessagePriority`. -/
inductive MessagePriority where
  | low | normal | high | urgent
deriving DecidableEq, Repr

/-- Enum `AgentCapability`. -/
inductive AgentCapability where
  | emotional_support | parenting_advice | conflict_resolution | goal_setting
  | cognitive_reframing | therapy | coaching | friendship | bridging
deriving DecidableEq, Repr

/-- The `.value` string of an `AgentCapability` member. -/
def capabilityValue : AgentCapability → String
  | .emotional_support => "emotional_support"
  | .parenting_advice => "parenting_advice"
  | .conflict_resolution => "conflict_resolution"
  | .goal_setting => "goal_setting"
  | .cognitive_reframing => "cognitive_reframing"
  | .therapy => "therapy"
  | .coaching => "coaching"
  | .friendship => "friendship"
  | .bridging => "bridging"

/-- Model `EmotionalState`: intensities are Python floats, embedded as
rationals; `secondary` is an optional list of dicts from emotion to
intensity (each dict an association list in insertion order). -/
structure EmotionalState where
  primary : String
  intensity : ℚ
  secondary : Option (List (List (String × ℚ)))
  confidence : ℚ
deriving DecidableEq, Repr

/-- Model `AgentMessage` (pydantic model; `content` is a `Dict[str, Any]`,
embedded as an association list of `JVal`s). -/
structure AgentMessage where
  id : String
  type : MessageType
  timestamp : Int
  sender : String
  recipient : String
  content : List (String × JVal)
  session_id : String
  user_id : String
  request_id : Option String
  priority : MessagePriority
  requires_response : Bool
  ttl : Option Int

/-- Function `create_message` from `protocol.py`, restricted to the keyword
arguments the memory manager passes (`id` is never passed, `request_id`
sometimes is).  The fresh `f"msg_{uuid4()}"` identifier is supplied as the
parameter `genId`, and `datetime.utcnow` as `now`.  Raises `ValueError`
when the type is `response` and no request id was supplied. -/
def create_message (now : Int) (genId : String) (message_type : MessageType)
    (sender recipient : String) (content : List (String × JVal))
    (session_id user_id : String) (request_id : Option String) :
    Except PyErr AgentMessage :=
  if request_id.isNone && message_type == .response then
    .error (.valueError "request_id is required for response messages")
  else
    .ok { id := genId, type := message_type, timestamp := now, sender := sender,
          recipient := recipient, content := content, session_id := session_id,
          user_id := user_id, request_id := request_id, priority := .normal,
          requires_response := false, ttl := none }

/-! ## Embedding of `app/agents/switching.py` -/

/-- Table `SwitchingRules.EMOTIONAL_THRESHOLDS`. -/
def EMOTIONAL_THRESHOLDS : List (String × ℚ) :=
  [("distress", 7/10), ("anxiety", 7/10), ("anger", 8/10),
   ("confusion", 6/10), ("joy", 9/10), ("grief", 6/10)]

/-- Table `SwitchingRules.TOPIC_SPECIALIZATION`. -/
def TOPIC_SPECIALIZATION : List (String × List String) :=
  [("parenting", ["Parent", "Family"]),
   ("relationships", ["Elora", "Bridge"]),
   ("emotional_support", ["Mirror", "Therapist"]),
   ("coaching", ["Coach", "Mentor"]),
   ("goal_setting", ["Coach", "Achiever"]),
   ("trauma", ["Therapist", "Healer"]),
   ("conflict", ["Mediator", "Bridge"]),
   ("communication", ["Bridge", "Communicator"]),
   ("technical", ["Technical", "Expert"])]

/-- Table `SwitchingRules.AGENT_CAPABILITIES`, in definition order. -/
def AGENT_CAPABILITIES : List (String × List AgentCapability) :=
  [("EchoMind", [.emotional_support, .cognitive_reframing]),
   ("Therapist", [.therapy, .emotional_support, .cognitive_reframing]),
   ("Coach", [.coaching, .goal_setting]),
   ("Parent", [.parenting_advice]),
   ("Bridge", [.bridging, .conflict_resolution]),
   ("Friend", [.friendship, .emotional_support])]

/-- The local `emotion_map` of `get_best_agent_for_emotion`. -/
def emotion_map : List (String × String) :=
  [("distress", "Therapist"), ("anxiety", "Therapist"), ("anger", "Mediator"),
   ("confusion", "Teacher"), ("joy", "Friend"), ("grief", "Therapist")]

/-- `SwitchingRules.get_best_agent_for_emotion`. -/
def get_best_agent_for_emotion (emotion : String) (intensity : ℚ) : Option String :=
  match EMOTIONAL_THRESHOLDS.lookup emotion with
  | none => none
  | some threshold =>
    if intensity < threshold then none
    else emotion_map.lookup emotion

/-- `SwitchingRules.get_best_agent_for_topic`: first table row whose area
contains the lowered topic or vice versa; returns the row's first agent
(every row of the fixed table is nonempty). -/
def get_best_agent_for_topic (topic : String) : Option String :=
  TOPIC_SPECIALIZATION.findSome? fun p =>
    if infixOfList (strLower topic).toList (strLower p.1).toList ||
        infixOfList (strLower p.1).toList (strLower topic).toList then
      some (p.2.headD "")
    else none

/-- `SwitchingRules.get_agents_with_capability`: agents in table order that
declare the capability. -/
def get_agents_with_capability (capability : AgentCapability) : List String :=
  AGENT_CAPABILITIES.filterMap fun p =>
    if p.2.contains capability then some p.1 else none

/-- `SwitchingEngine.evaluate_emotional_state`: the primary emotion first,
then the secondary dicts in their given order (a missing or empty secondary
list is falsy and skipped, which coincides with searching the empty list). -/
def evaluate_emotional_state (emotional_state : EmotionalState) : Option String :=
  match get_best_agent_for_emotion emotional_state.primary emotional_state.intensity with
  | some agent => some agent
  | none =>
    ((emotional_state.secondary.getD []).flatMap id).findSome? fun p =>
      get_best_agent_for_emotion p.1 p.2

/-- `SwitchingEngine.evaluate_topic`: first topic with a recommended agent. -/
def evaluate_topic (topics : List String) : Option String :=
  topics.findSome? get_best_agent_for_topic

/-- CPython `dict[agent] += 1` with a `0` default: bump the first binding of
the key in place, else append a fresh binding (insertion order preserved). -/
def bumpAssoc : List (String × Nat) → String → List (String × Nat)
  | [], agent => [(agent, 1)]
  | (k, v) :: rest, agent =>
    if k == agent then (k, v + 1) :: rest else (k, v) :: bumpAssoc rest agent

/-- The `agents_with_capabilities` dict built by
`evaluate_capabilities_needed`: for each needed capability in order, bump
every declaring agent in table order. -/
def build_capability_tally (capabilities_needed : List AgentCapability) :
    List (String × Nat) :=
  capabilities_needed.foldl
    (fun d capability => (get_agents_with_capability capability).foldl bumpAssoc d) []

/-- Python `max(items, key=lambda x: x[1])`: the earliest item attaining the
maximal value (`max` replaces its candidate only on a strictly greater key). -/
def firstMax : List (String × Nat) → Option (String × Nat)
  | [] => none
  | p :: rest =>
    match firstMax rest with
    | none => some p
    | some q => some (if q.2 > p.2 then q else p)

/-- `SwitchingEngine.evaluate_capabilities_needed`.  The `count >=
len(capabilities_needed) / 2` test uses real division, i.e. `2 * count ≥
len`. -/
def evaluate_capabilities_needed (capabilities_needed : List AgentCapability) :
    Option String :=
  match firstMax (build_capability_tally capabilities_needed) with
  | none => none
  | some (best_agent, count) =>
    if 2 * count ≥ capabilities_needed.length then some best_agent else none

/-- Simplified display of a rational for the f-string reasons built by
`evaluate_switch` (the `:.1f` float formatting is abstracted; no claim
inspects these strings). -/
def ratStr (q : ℚ) : String := toString q

/-- One guarded assignment step of `evaluate_switch`: take the candidate if
the step is enabled, nothing was recommended yet, and the candidate is a
truthy string different from the current agent. -/
def consider (current_agent : String) (prev : Option String × Option String)
    (enabled : Bool) (candidate : Option String) (mkReason : String → String) :
    Option String × Option String :=
  if enabled && prev.1.isNone then
    match candidate with
    | some agent =>
      if agent ≠ "" ∧ agent ≠ current_agent then (some agent, some (mkReason agent))
      else prev
    | none => prev
  else prev

/-- `SwitchingEngine.evaluate_switch`.  The unused `conversation_state`
parameter is kept for signature fidelity. -/
def evaluate_switch (current_agent : String)
    (emotional_state : Option EmotionalState) (topics : Option (List String))
    (capabilities_needed : Option (List AgentCapability))
    (conversation_state : Option JVal) : Bool × Option String × Option String :=
  let _ := conversation_state
  let r₁ :=
    consider current_agent (none, none) emotional_state.isSome
      (match emotional_state with
       | some es => evaluate_emotional_state es
       | none => none)
      (fun agent =>
        match emotional_state with
        | some es =>
          "Emotional state (" ++ es.primary ++ " at " ++ ratStr es.intensity ++
            " intensity) requires " ++ agent
        | none => "")
  let topicsEnabled := match topics with | some l => !l.isEmpty | none => false
  let r₂ :=
    consider current_agent r₁ topicsEnabled
      (evaluate_topic (topics.getD []))
      (fun agent =>
        "Topic specialization in '" ++ String.intercalate ", " (topics.getD []) ++
          "' suggests " ++ agent)
  let capsEnabled := match capabilities_needed with | some l => !l.isEmpty | none => false
  let r₃ :=
    consider current_agent r₂ capsEnabled
      (evaluate_capabilities_needed (capabilities_needed.getD []))
      (fun agent =>
        "Required capabilities " ++
          String.intercalate ", " ((capabilities_needed.getD []).map capabilityValue) ++
          " are best handled by " ++ agent)
  (r₃.1.isSome, r₃.1, r₃.2)

/-! ## Embedding of `app/agents/memory.py` -/

/-- Enum `MemoryAccessLevel`. -/
inductive MemoryAccessLevel where
  | none | read | write | admin
deriving DecidableEq, Repr

/-- Enum `MemoryCategory`. -/
inductive MemoryCategory where
  | general | emotional | personal | medical | therapeutic | system | session
deriving DecidableEq, Repr

/-- The `.value` string of a `MemoryCategory` member (format of the str-enum
in the access-denied f-string). -/
def memoryCategoryStr : MemoryCategory → String
  | .general => "general"
  | .emotional => "emotional"
  | .personal => "personal"
  | .medical => "medical"
  | .therapeutic => "therapeutic"
  | .system => "system"
  | .session => "session"

/-- Enum `MemoryScope`. -/
inductive MemoryScope where
  | current_session | recent | historical | all
deriving DecidableEq, Repr

/-- Table `MemoryAccessPolicy.DEFAULT_POLICIES`. -/
def DEFAULT_POLICIES : List (String × List (MemoryCategory × MemoryAccessLevel)) :=
  [("EchoMind",
    [(.general, .write), (.emotional, .write), (.personal, .read),
     (.medical, .none), (.therapeutic, .read), (.system, .read),
     (.session, .write)]),
   ("Therapist",
    [(.general, .write), (.emotional, .write), (.personal, .read),
     (.medical, .read), (.therapeutic, .write), (.system, .read),
     (.session, .write)]),
   ("Bridge",
    [(.general, .read), (.emotional, .read), (.personal, .read),
     (.medical, .none), (.therapeutic, .none), (.system, .read),
     (.session, .write)]),
   ("MemoryService",
    [(.general, .admin), (.emotional, .admin), (.personal, .admin),
     (.medical, .admin), (.therapeutic, .admin), (.system, .admin),
     (.session, .admin)]),
   ("*",
    [(.general, .read), (.emotional, .read), (.personal, .none),
     (.medical, .none), (.therapeutic, .none), (.system, .read),
     (.session, .write)])]

/-- Table `MemoryAccessPolicy.DEFAULT_SCOPES`. -/
def DEFAULT_SCOPES : List (String × MemoryScope) :=
  [("EchoMind", .all), ("Therapist", .all), ("Bridge", .recent),
   ("MemoryService", .all), ("*", .current_session)]

/-- `MemoryAccessPolicy.get_agent_access_level`. -/
def get_agent_access_level (agent_name : String) (memory_category : MemoryCategory) :
    MemoryAccessLevel :=
  let agent_policy :=
    match DEFAULT_POLICIES.lookup agent_name with
    | some p => p
    | none => (DEFAULT_POLICIES.lookup "*").getD []
  (agent_policy.lookup memory_category).getD .none

/-- `MemoryAccessPolicy.get_agent_scope`. -/
def get_agent_scope (agent_name : String) : MemoryScope :=
  (DEFAULT_SCOPES.lookup agent_name).getD
    ((DEFAULT_SCOPES.lookup "*").getD .current_session)

/-- `MemoryAccessPolicy.check_access`: the operation string is lowered for
the lookup, and unknown operations require `admin`. -/
def check_access (agent_name : String) (memory_category : MemoryCategory)
    (operation : String) : Bool :=
  let access_level := get_agent_access_level agent_name memory_category
  let required_levels : List MemoryAccessLevel :=
    match strLower operation with
    | "read" => [.read, .write, .admin]
    | "write" => [.write, .admin]
    | "update" => [.write, .admin]
    | "delete" => [.admin]
    | _ => [.admin]
  required_levels.contains access_level

/-- `MemoryAccessPolicy.get_scope_time_filter` with `datetime.utcnow()`
supplied as `now` (seconds): 24 hours / 30 days / 365 days lookback, or no
cutoff for scope `all`. -/
def get_scope_time_filter (now : Int) (agent_name : String) : Option Int :=
  match get_agent_scope agent_name with
  | .current_session => some (now - 24 * 3600)
  | .recent => some (now - 30 * 86400)
  | .historical => some (now - 365 * 86400)
  | .all => none

/-- Model of `datetime.isoformat` under the integer-timestamp embedding. -/
def isoformat (t : Int) : String := toString t

/-- Model of `datetime.fromisoformat` applied to an arbitrary payload value:
non-strings raise `TypeError`, unparsable strings raise `ValueError`. -/
def fromisoformat (v : JVal) : Except PyErr Int :=
  match v with
  | .str s =>
    match s.toInt? with
    | some t => .ok t
    | Option.none => .error (.valueError ("Invalid isoformat string: " ++ s))
  | _ => .error .typeError

/-- The `type_map` of `_map_memory_type_to_category`. -/
def type_map : List (String × MemoryCategory) :=
  [("general", .general), ("emotional", .emotional),
   ("emotional_state", .emotional), ("personal", .personal),
   ("profile", .personal), ("medical", .medical), ("health", .medical),
   ("therapeutic", .therapeutic), ("therapy", .therapeutic),
   ("system", .system), ("session", .session), ("conversation", .session)]

/-- `MemoryAccessManager._map_memory_type_to_category`: raises `ValueError`
on an unknown type (every mapped category is truthy). -/
def map_memory_type_to_category (memory_type : String) :
    Except PyErr MemoryCategory :=
  match type_map.lookup (strLower memory_type) with
  | some category => .ok category
  | Option.none => .error (.valueError ("Unknown memory type: " ++ memory_type))

/-- A stored `MemorySnapshot` row, with `summary_text` kept both as the raw
stored text and as the outcome of `json.loads` on it (`Except.error ()`
models a `json.JSONDecodeError`); the JSON string decoding itself is
abstracted to that outcome. -/
structure MemorySnapshotRow where
  user_id : String
  agent : String
  updated_at : Int
  summary_text : String
  summary_parsed : Except Unit JVal

/-- The storage collaborator visible to the memory manager. -/
structure Db where
  snapshots : List MemorySnapshotRow

/-- The snapshot returned by `order_by(updated_at.desc()).limit(1)` over the
rows matching (user, agent): a row with maximal `updated_at` (the first
stored one, ties being unspecified by SQL). -/
def latest_snapshot (db : Db) (user_id agent : String) : Option MemorySnapshotRow :=
  let rows := db.snapshots.filter fun r => r.user_id == user_id && r.agent == agent
  match rows with
  | [] => none
  | r :: rest => some (rest.foldl (fun best q => if q.updated_at > best.updated_at then q else best) r)

/-- The dot-path loop of `_read_general_memory` (lines 539-545): `part in
current` then `current[part]`, returning `None` on a failed membership
test.  A `TypeError` from either operation propagates (the surrounding
`except` clause lists only `json.JSONDecodeError`, `AttributeError` and
`KeyError`). -/
def traverse_path (current : JVal) : List String → Except PyErr JVal
  | [] => .ok current
  | part :: rest =>
    match pyContains current part with
    | .error e => .error e
    | .ok false => .ok .null
    | .ok true =>
      match pyGetItem current part with
      | .error e => .error e
      | .ok next => traverse_path next rest

/-- The `except (json.JSONDecodeError, AttributeError, KeyError)` handler
around the traversal: those exceptions become `None`, others propagate. -/
def catch_traversal_errors (r : Except PyErr JVal) : Except PyErr JVal :=
  match r with
  | .error .attributeError => .ok .null
  | .error .keyError => .ok .null
  | other => other

/-- `MemoryAccessManager._read_general_memory` (the `filters` argument is
unused by the source body; `path` is whatever payload value the request
carried).  A parse failure or a non-string `path` (whose `.split` raises
`AttributeError` inside the `try`) yields `None`. -/
def _read_general_memory (db : Db) (user_id agent : String) (path : JVal)
    (filters : JVal) : Except PyErr JVal :=
  let _ := filters
  match latest_snapshot db user_id agent with
  | none => .ok .null
  | some snapshot =>
    if (match path with | .str s => s == "all" | _ => false) then
      .ok (.str snapshot.summary_text)
    else
      match snapshot.summary_parsed with
      | .error _ => .ok .null
      | .ok memory_dict =>
        match path with
        | .str p => catch_traversal_errors (traverse_path memory_dict (splitOnDot p))
        | _ => .ok .null

/-- `MemoryAccessManager._read_emotional_memory`.  After parsing the
optional `since` filter, the source builds its query with
`SummaryLog.timestamp`, an attribute the `SummaryLog` model does not define
(`app/models.py` only has `created_at`/`updated_at`), so the function
raises `AttributeError` before reaching storage. -/
def _read_emotional_memory (user_id : String) (path : JVal) (filters : JVal) :
    Except PyErr JVal :=
  let _ := (user_id, path)
  match pyContains filters "since" with
  | .error e => .error e
  | .ok true =>
    match pyGetItem filters "since" with
    | .error e => .error e
    | .ok v =>
      match fromisoformat v with
      | .error e => .error e
      | .ok _ => .error .attributeError
  | .ok false => .error .attributeError

/-- `MemoryAccessManager._read_session_memory`: fixed placeholder payload. -/
def _read_session_memory (now : Int) (user_id : String) (path filters : JVal) :
    Except PyErr JVal :=
  let _ := (user_id, path, filters)
  .ok (.dict
    [("messages", .list
       [.dict [("role", .str "user"), ("content", .str "Hello")],
        .dict [("role", .str "assistant"),
               ("content", .str "Hi there! How can I help you today?")]]),
     ("topic", .str "general conversation"),
     ("session_id", .str "placeholder_session_id"),
     ("session_start", .str (isoformat now))])

/-- `MemoryAccessManager._read_generic_memory`: fixed placeholder payload. -/
def _read_generic_memory (memory_type user_id : String) (path filters : JVal) :
    Except PyErr JVal :=
  let _ := filters
  .ok (.dict
    [("type", .str memory_type), ("user_id", .str user_id),
     ("path", path),
     ("note", .str "This is a placeholder for generic memory access")])

/-- `MemoryAccessManager._handle_read`: install the scope cutoff as a
default `since` filter by mutating the filters value in place, then
dispatch on the memory type.  Returns the outcome together with the
filters value after mutation. -/
def _handle_read (now : Int) (db : Db) (agent memory_type : String) (path : JVal)
    (user_id : String) (filters : JVal) : Except PyErr JVal × JVal :=
  let withSince : Except PyErr JVal :=
    match get_scope_time_filter now agent with
    | some t =>
      match pyContains filters "since" with
      | .error e => .error e
      | .ok true => .ok filters
      | .ok false => pySetItem filters "since" (.str (isoformat t))
    | none => .ok filters
  match withSince with
  | .error e => (.error e, filters)
  | .ok filters' =>
    let result :=
      if memory_type == "emotional" || memory_type == "emotional_state" then
        _read_emotional_memory user_id path filters'
      else if memory_type == "general" then
        _read_general_memory db user_id agent path filters'
      else if memory_type == "session" || memory_type == "conversation" then
        _read_session_memory now user_id path filters'
      else
        _read_generic_memory memory_type user_id path filters'
    (result, filters')

/-- `MemoryAccessManager._handle_write`: logs and reports success. -/
def _handle_write (agent memory_type : String) (path : JVal) (user_id : String)
    (data : JVal) : Except PyErr JVal :=
  let _ := (agent, user_id, data)
  .ok (.dict
    [("success", .bool true), ("memory_type", .str memory_type),
     ("path", path)])

/-- `MemoryAccessManager._handle_update`: logs and reports success. -/
def _handle_update (agent memory_type : String) (path : JVal) (user_id : String)
    (data : JVal) : Except PyErr JVal :=
  let _ := (agent, user_id, data)
  .ok (.dict
    [("success", .bool true), ("memory_type", .str memory_type),
     ("path", path)])

/-- `MemoryAccessManager._handle_delete`: logs and reports success. -/
def _handle_delete (agent memory_type : String) (path : JVal) (user_id : String) :
    Except PyErr JVal :=
  let _ := (agent, user_id)
  .ok (.dict
    [("success", .bool true), ("memory_type", .str memory_type),
     ("path", path)])

/-- Display of an exception as `str(e)` (texts of non-`ValueError`
exceptions are abstracted to their class name; no claim inspects them). -/
def pyErrStr : PyErr → String
  | .valueError msg => msg
  | .typeError => "TypeError"
  | .attributeError => "AttributeError"
  | .keyError => "KeyError"

/-- `MemoryAccessManager._create_error_response` (a raise inside
`create_message` would propagate, but the request id is always supplied). -/
def _create_error_response (now : Int) (genId : String) (request : AgentMessage)
    (error_message : String) : Except PyErr AgentMessage :=
  create_message now genId .response "MemoryService" request.sender
    [("status", .str "error"), ("error", .str error_message)]
    request.session_id request.user_id (some request.id)

/-- Truthiness of a `dict.get` result (`None` for a missing key is falsy). -/
def truthyOpt : Option JVal → Bool
  | some v => pyTruthy v
  | none => false

/-- The tail of every dispatch branch inside the `try` block of
`handle_memory_request`: a handler outcome becomes a `status: success`
response, and a handler exception is caught and becomes a `status: error`
response carrying the exception text. -/
def finish_request (now : Int) (genId : String) (message : AgentMessage)
    (result : Except PyErr JVal) (message' : AgentMessage) :
    Except PyErr AgentMessage × AgentMessage :=
  match result with
  | .ok r =>
    (create_message now genId .response "MemoryService" message.sender
      [("status", .str "success"), ("result", r)]
      message.session_id message.user_id (some message.id), message')
  | .error e =>
    (_create_error_response now genId message
      ("Error handling memory request: " ++ pyErrStr e), message')

/-- `MemoryAccessManager.handle_memory_request`.  The returned pair is the
call's outcome (`Except.error` models an exception escaping to the caller)
together with the request message after the call: the only mutation the
body can perform is the in-place default-`since` insertion into the
`filters` dict aliased by `message.content` during a read.  A non-string
truthy `operation` or `memory_type` raises `AttributeError` at `.lower()`
(uncaught), matching the source. -/
def handle_memory_request (now : Int) (genId : String) (db : Db)
    (message : AgentMessage) : Except PyErr AgentMessage × AgentMessage :=
  if message.type ≠ .memory_access then
    (.error (.valueError
       ("Expected MEMORY_ACCESS message, got " ++ messageTypeStr message.type)),
     message)
  else
    let memory_request := message.content
    let operation? := memory_request.lookup "operation"
    let memory_type? := memory_request.lookup "memory_type"
    let path? := memory_request.lookup "path"
    if ¬(truthyOpt operation? && truthyOpt memory_type? && truthyOpt path?) then
      (_create_error_response now genId message
        "Invalid memory request: missing required fields", message)
    else
      match memory_type? with
      | some (.str memory_type) =>
        (match map_memory_type_to_category memory_type with
         | .error (.valueError e) =>
           (_create_error_response now genId message e, message)
         | .error e => (.error e, message)
         | .ok memory_category =>
           match operation? with
           | some (.str operation) =>
             if ¬ check_access message.sender memory_category operation then
               (_create_error_response now genId message
                 ("Access denied: " ++ message.sender ++ " cannot " ++ operation ++
                   " " ++ memoryCategoryStr memory_category ++ " memory"), message)
             else
               let path := path?.getD .null
               if operation == "read" then
                 let filters? := memory_request.lookup "filters"
                 let (result, filters') :=
                   _handle_read now db message.sender memory_type path
                     message.user_id (filters?.getD (.dict []))
                 let message' :=
                   match filters? with
                   | some _ =>
                     { message with
                        content := assocSet memory_request "filters" filters' }
                   | none => message
                 finish_request now genId message result message'
               else if operation == "write" then
                 finish_request now genId message
                   (_handle_write message.sender memory_type path message.user_id
                     ((memory_request.lookup "data").getD .null))
                   message
               else if operation == "update" then
                 finish_request now genId message
                   (_handle_update message.sender memory_type path message.user_id
                     ((memory_request.lookup "data").getD .null))
                   message
               else if operation == "delete" then
                 finish_request now genId message
                   (_handle_delete message.sender memory_type path message.user_id)
                   message
               else
                 (_create_error_response now genId message
                   ("Invalid operation: " ++ operation), message)
           | _ => (.error .attributeError, message))
      | _ => (.error .attributeError, message)

/-! ## Theorems for the claims -/

/-- Helper: natural division by 4 agrees with the rational floor. -/
theorem natDiv4_eq_floor (n : ℕ) : ((n / 4 : ℕ) : ℤ) = ⌊(n : ℚ) / 4⌋ := by
  have h := Rat.floor_intCast_div_natCast (n : ℤ) 4
  push_cast at h
  rw [h]
  omega

/-- C5: `estimate_tokens` is the floor of
`0.75·wordCount + punctuationCount + 0.25·whitespaceRunCount`, and
`estimate_messages_tokens` is the sum of the per-message content estimates
plus a flat 4 tokens per message plus `len(role) // 4` plus `len(name) // 4`
when a name is present. -/
theorem estimate_tokens_formula :
    (∀ text : String, (estimate_tokens text : ℤ) =
      ⌊(3 * wordCount text + 4 * punctCount text + wsRunCount text : ℚ) / 4⌋) ∧
    (∀ text : String, (estimate_tokens text : ℤ) =
      ⌊(0.75 : ℚ) * wordCount text + punctCount text + (0.25 : ℚ) * wsRunCount text⌋) ∧
    (∀ messages : List ChatMessage, estimate_messages_tokens messages =
      4 * messages.length +
        (messages.map fun m =>
          estimate_tokens (m.content.getD "") + (m.role.getD "").length / 4 +
            (if (m.name.getD "") ≠ "" then (m.name.getD "").length / 4 else 0)).sum) := by
  have key : ∀ text : String, (estimate_tokens text : ℤ) =
      ⌊(3 * wordCount text + 4 * punctCount text + wsRunCount text : ℚ) / 4⌋ := by
    intro text
    unfold estimate_tokens
    by_cases h : text.isEmpty
    · have hw : wordCount text = 0 := by
        unfold wordCount
        rw [String.isEmpty_iff] at h
        subst h; rfl
      have hp : punctCount text = 0 := by
        unfold punctCount
        rw [String.isEmpty_iff] at h
        subst h; rfl
      have hs : wsRunCount text = 0 := by
        unfold wsRunCount
        rw [String.isEmpty_iff] at h
        subst h; rfl
      rw [hw, hp, hs]
      simp [h]
    · rw [if_neg h]
      rw [natDiv4_eq_floor]
      congr 1
      push_cast
      ring
  refine ⟨key, fun text => ?_, fun messages => ?_⟩
  · rw [key text]
    congr 1
    ring
  · unfold estimate_messages_tokens
    have gen : ∀ (l : List ChatMessage) (a : ℕ),
        l.foldl (fun acc m =>
          acc + estimate_tokens (m.content.getD "") + (m.role.getD "").length / 4 +
            (if (m.name.getD "") ≠ "" then (m.name.getD "").length / 4 else 0)) a =
        a + (l.map fun m =>
          estimate_tokens (m.content.getD "") + (m.role.getD "").length / 4 +
            (if (m.name.getD "") ≠ "" then (m.name.getD "").length / 4 else 0)).sum := by
      intro l
      induction l with
      | nil => intro a; simp
      | cons m rest ih =>
        intro a
        simp only [List.foldl_cons, List.map_cons, List.sum_cons]
        rw [ih]
        ring
    rw [gen]
    ring

/-- C6: when the messages' total token estimate is at most the effective
limit, `fit_to_context_window` returns the input list unchanged. -/
theorem fit_to_context_window_identity (cwm : ContextWindowManager)
    (messages : List ChatMessage) (include_system_prompt : Bool)
    (important_indices : Option (List Nat))
    (h : (estimate_messages_tokens messages : Int) ≤ cwm.effective_limit) :
    fit_to_context_window cwm messages include_system_prompt important_indices =
      messages := by
  unfold fit_to_context_window
  simp [h]

/-- Witness for C6 at a concrete input: two small messages against the
default `gpt-4` manager. -/
theorem fit_to_context_window_identity_witness :
    ((estimate_messages_tokens
        [⟨some "system", some "You are helpful", none⟩,
         ⟨some "user", some "Hi", none⟩] : Int) ≤
      (mkContextWindowManager "gpt-4" none 1000).effective_limit) ∧
    fit_to_context_window (mkContextWindowManager "gpt-4" none 1000)
        [⟨some "system", some "You are helpful", none⟩,
         ⟨some "user", some "Hi", none⟩] true none =
      [⟨some "system", some "You are helpful", none⟩,
       ⟨some "user", some "Hi", none⟩] :=
  ⟨by decide,
   fit_to_context_window_identity _ _ _ _ (by decide)⟩

/-- C8 counterexample: `ContextWindowManager.__init__` with `max_tokens=5`,
`buffer_tokens=1000` succeeds (the constructor has no failure path) and
yields the negative effective limit `-995`: the `effective limit ≥ 0`
invariant is not enforced and no exception is raised on this construction. -/
theorem cwm_init_negative_limit_cex :
    (mkContextWindowManager "gpt-4" (some 5) 1000).effective_limit = -995 ∧
    ¬ (0 ≤ (mkContextWindowManager "gpt-4" (some 5) 1000).effective_limit) := by
  constructor
  · rfl
  · decide

/-- C8 amended: construction always succeeds, `effective_limit` is exactly
the resolved maximum minus the buffer, and whenever the buffer exceeds the
resolved maximum the resulting limit is negative (the constructor proceeds
with it rather than raising). -/
theorem cwm_init_amended (model_name : String) (max_tokens : Option Nat)
    (buffer_tokens : Nat) :
    (mkContextWindowManager model_name max_tokens buffer_tokens).effective_limit =
      ((mkContextWindowManager model_name max_tokens buffer_tokens).max_tokens : Int) -
        ((mkContextWindowManager model_name max_tokens buffer_tokens).buffer_tokens : Int) ∧
    (((mkContextWindowManager model_name max_tokens buffer_tokens).max_tokens : Int) <
        buffer_tokens →
      (mkContextWindowManager model_name max_tokens buffer_tokens).effective_limit < 0) := by
  refine ⟨rfl, ?_⟩
  intro h
  have h2 : (mkContextWindowManager model_name max_tokens buffer_tokens).effective_limit =
      ((mkContextWindowManager model_name max_tokens buffer_tokens).max_tokens : Int) -
        ((mkContextWindowManager model_name max_tokens buffer_tokens).buffer_tokens : Int) := rfl
  have h3 : (mkContextWindowManager model_name max_tokens buffer_tokens).buffer_tokens =
      buffer_tokens := rfl
  rw [h2, h3]
  omega

/-- Witness for C8 amended at the concrete 5-token/1000-buffer input. -/
theorem cwm_init_amended_witness :
    (mkContextWindowManager "gpt-4" (some 5) 1000).effective_limit =
      ((mkContextWindowManager "gpt-4" (some 5) 1000).max_tokens : Int) -
        ((mkContextWindowManager "gpt-4" (some 5) 1000).buffer_tokens : Int) ∧
    (((mkContextWindowManager "gpt-4" (some 5) 1000).max_tokens : Int) < 1000 ∧
      (mkContextWindowManager "gpt-4" (some 5) 1000).effective_limit < 0) :=
  ⟨(cwm_init_amended "gpt-4" (some 5) 1000).1,
   by decide, (cwm_init_amended "gpt-4" (some 5) 1000).2 (by decide)⟩

/-- Concrete tiny-window manager used by the context-packing witnesses. -/
def cwm_tiny : ContextWindowManager := mkContextWindowManager "gpt-4" (some 5) 1000

/-- Concrete user message used by the context-packing witnesses. -/
def msg_hi : ChatMessage := ⟨some "user", some "Hi", none⟩

/-- Concrete system message used by the context-packing witnesses. -/
def msg_sys : ChatMessage := ⟨some "system", some "You are helpful", none⟩

/-- C2 amended: whenever the reconstructed list's estimate still exceeds
the effective limit, the result is exactly the system-role messages of the
reconstructed list, then the synthesized summary message (whose content
begins with "Earlier conversation summary:"), then the last
`min(4, N)` messages of the reconstructed list. -/
theorem fit_fallback_exact (cwm : ContextWindowManager)
    (messages : List ChatMessage) (include_system_prompt : Bool)
    (important_indices : Option (List Nat))
    (h₁ : (estimate_messages_tokens messages : Int) > cwm.effective_limit)
    (h₂ : (estimate_messages_tokens
        (fit_reconstruct cwm messages include_system_prompt important_indices) : Int) >
      cwm.effective_limit) :
    fit_to_context_window cwm messages include_system_prompt important_indices =
      (fit_reconstruct cwm messages include_system_prompt important_indices).filter
          (fun m => m.role.getD "" == "system") ++
        [summary_fallback_message
          (fit_reconstruct cwm messages include_system_prompt important_indices)] ++
        (fit_reconstruct cwm messages include_system_prompt important_indices).drop
          ((fit_reconstruct cwm messages include_system_prompt important_indices).length -
            min 4 (fit_reconstruct cwm messages include_system_prompt important_indices).length) := by
  have h₁' := not_le.mpr h₁
  simp only [fit_to_context_window]
  rw [if_neg h₁', if_pos h₂]

/-- Witness for C2 amended: the spec's own scenario (a system and a user
message against a 5-token budget) lands in the fallback tier. -/
theorem fit_fallback_exact_witness :
    ((estimate_messages_tokens [msg_sys, msg_hi] : Int) > cwm_tiny.effective_limit) ∧
    ((estimate_messages_tokens (fit_reconstruct cwm_tiny [msg_sys, msg_hi] true none) : Int) >
      cwm_tiny.effective_limit) ∧
    fit_to_context_window cwm_tiny [msg_sys, msg_hi] true none =
      (fit_reconstruct cwm_tiny [msg_sys, msg_hi] true none).filter
          (fun m => m.role.getD "" == "system") ++
        [summary_fallback_message (fit_reconstruct cwm_tiny [msg_sys, msg_hi] true none)] ++
        (fit_reconstruct cwm_tiny [msg_sys, msg_hi] true none).drop
          ((fit_reconstruct cwm_tiny [msg_sys, msg_hi] true none).length -
            min 4 (fit_reconstruct cwm_tiny [msg_sys, msg_hi] true none).length) :=
  ⟨by decide, by decide, fit_fallback_exact cwm_tiny [msg_sys, msg_hi] true none (by decide) (by decide)⟩

/-- C2 counterexample: a non-system message at an important index survives
the fallback tier (it lies among the last `min(4, N)` reconstructed
messages), refuting "non-system important-indexed messages do not survive
this fallback": here message 0 is important-indexed, non-system, the run is
in the fallback tier, and the message is in the output. -/
theorem fit_fallback_keeps_important_cex :
    ((estimate_messages_tokens [msg_hi] : Int) > cwm_tiny.effective_limit) ∧
    ((estimate_messages_tokens (fit_reconstruct cwm_tiny [msg_hi] true (some [0])) : Int) >
      cwm_tiny.effective_limit) ∧
    msg_hi ∈ fit_to_context_window cwm_tiny [msg_hi] true (some [0]) ∧
    msg_hi.role ≠ some "system" := by
  refine ⟨by decide, by decide, ?_, by decide⟩
  have : fit_to_context_window cwm_tiny [msg_hi] true (some [0]) =
      [summary_fallback_message [msg_hi], msg_hi] := by decide
  rw [this]
  exact List.mem_cons_of_mem _ (List.mem_singleton.mpr rfl)

/-- C3: `evaluate_switch` never recommends the current agent, and the
should-switch flag is exactly the presence of a recommended target. -/
theorem evaluate_switch_never_current (current_agent : String)
    (emotional_state : Option EmotionalState) (topics : Option (List String))
    (capabilities_needed : Option (List AgentCapability))
    (conversation_state : Option JVal) :
    (evaluate_switch current_agent emotional_state topics capabilities_needed
        conversation_state).2.1 ≠ some current_agent ∧
    (evaluate_switch current_agent emotional_state topics capabilities_needed
        conversation_state).1 =
      (evaluate_switch current_agent emotional_state topics capabilities_needed
        conversation_state).2.1.isSome := by
  have step : ∀ (prev : Option String × Option String) (e : Bool)
      (c : Option String) (r : String → String),
      prev.1 ≠ some current_agent →
      (consider current_agent prev e c r).1 ≠ some current_agent := by
    intro prev e c r hprev
    unfold consider
    split
    · split
      · split
        · rename_i ha
          intro h
          exact ha.2 (Option.some.inj h)
        · exact hprev
      · exact hprev
    · exact hprev
  constructor
  · exact step _ _ _ _ (step _ _ _ _ (step _ _ _ _ (by exact Option.noConfusion)))
  · rfl

/-- Witness for C3 at the spec's distress scenario. -/
theorem evaluate_switch_never_current_witness :
    (evaluate_switch "Therapist" (some ⟨"distress", 3/4, none, 9/10⟩) none none
        none).2.1 ≠ some "Therapist" ∧
    (evaluate_switch "Therapist" (some ⟨"distress", 3/4, none, 9/10⟩) none none
        none).1 =
      (evaluate_switch "Therapist" (some ⟨"distress", 3/4, none, 9/10⟩) none none
        none).2.1.isSome :=
  evaluate_switch_never_current "Therapist" (some ⟨"distress", 3/4, none, 9/10⟩)
    none none none

/-- An agent declares a capability when the capability table lists it for
that agent (equivalently, `get_agents_with_capability` yields it). -/
def agent_declares (agent : String) (capability : AgentCapability) : Bool :=
  (get_agents_with_capability capability).contains agent

/-- Number of required capabilities (with multiplicity) an agent declares. -/
def tallyOf (capabilities_needed : List AgentCapability) (agent : String) : Nat :=
  capabilities_needed.countP fun c => agent_declares agent c

/-- Tally recorded for a key in the tally dict (`0` when absent). -/
def lookupVal (d : List (String × Nat)) (b : String) : Nat :=
  (d.lookup b).getD 0

/-- Keys of the tally dict, in insertion order. -/
def keysOf (d : List (String × Nat)) : List String := d.map Prod.fst

theorem bump_lookupVal (d : List (String × Nat)) (a b : String) :
    lookupVal (bumpAssoc d a) b = lookupVal d b + (if b = a then 1 else 0) := by
  induction d with
  | nil =>
    by_cases hba : b = a
    · subst hba; simp [bumpAssoc, lookupVal, List.lookup]
    · have hf : (b == a) = false := beq_eq_false_iff_ne.mpr hba
      simp [bumpAssoc, lookupVal, List.lookup, hf, hba]
  | cons p rest ih =>
    obtain ⟨k, v⟩ := p
    by_cases hka : k = a
    · subst hka
      by_cases hbk : b = k
      · subst hbk
        simp [bumpAssoc, lookupVal, List.lookup]
      · have hf : (b == k) = false := beq_eq_false_iff_ne.mpr hbk
        simp [bumpAssoc, lookupVal, List.lookup, hf, hbk]
    · have hbeq : (k == a) = false := beq_eq_false_iff_ne.mpr hka
      by_cases hbk : b = k
      · subst hbk
        have hba : b ≠ a := hka
        simp [bumpAssoc, hbeq, lookupVal, List.lookup, hba]
      · have hbkeq : (b == k) = false := beq_eq_false_iff_ne.mpr hbk
        simp only [bumpAssoc, hbeq, Bool.false_eq_true, if_false]
        simp only [lookupVal, List.lookup, hbkeq] at ih ⊢
        exact ih

theorem foldBump_lookupVal (agents : List String) (d : List (String × Nat))
    (b : String) :
    lookupVal (agents.foldl bumpAssoc d) b = lookupVal d b + agents.count b := by
  induction agents generalizing d with
  | nil => simp
  | cons a rest ih =>
    simp only [List.foldl_cons]
    rw [ih, bump_lookupVal]
    rcases eq_or_ne b a with h | h
    · subst h
      simp [List.count_cons]
      omega
    · have : (a == b) = false := beq_eq_false_iff_ne.mpr (Ne.symm h)
      simp [List.count_cons, this, h]

theorem gawc_nodup (c : AgentCapability) : (get_agents_with_capability c).Nodup := by
  cases c <;> decide

theorem gawc_count (c : AgentCapability) (b : String) :
    (get_agents_with_capability c).count b = if agent_declares b c then 1 else 0 := by
  by_cases h : b ∈ get_agents_with_capability c
  · have h1 : agent_declares b c = true := by
      simpa [agent_declares, List.elem_iff] using h
    rw [h1, if_pos rfl, List.count_eq_one_of_mem (gawc_nodup c) h]
  · have h1 : agent_declares b c = false := by
      simpa [agent_declares, List.elem_iff] using h
    simp [h1, List.count_eq_zero_of_not_mem h]

theorem buildTally_lookupVal (capabilities_needed : List AgentCapability)
    (b : String) :
    lookupVal (build_capability_tally capabilities_needed) b =
      tallyOf capabilities_needed b := by
  have aux : ∀ (caps : List AgentCapability) (d : List (String × Nat)),
      lookupVal (caps.foldl
        (fun d c => (get_agents_with_capability c).foldl bumpAssoc d) d) b =
      lookupVal d b + tallyOf caps b := by
    intro caps
    induction caps with
    | nil => intro d; simp [tallyOf]
    | cons c rest ih =>
      intro d
      simp only [List.foldl_cons]
      rw [ih, foldBump_lookupVal, gawc_count]
      simp only [tallyOf, List.countP_cons]
      by_cases h : agent_declares b c
      · simp [h]
        omega
      · simp [h]
  have h0 : lookupVal [] b = 0 := rfl
  simpa [build_capability_tally, h0] using aux capabilities_needed []

theorem bump_keys (d : List (String × Nat)) (a : String) :
    keysOf (bumpAssoc d a) =
      if a ∈ keysOf d then keysOf d else keysOf d ++ [a] := by
  induction d with
  | nil => simp [bumpAssoc, keysOf]
  | cons p rest ih =>
    obtain ⟨k, v⟩ := p
    simp only [keysOf, List.map_cons] at ih ⊢
    by_cases hka : k = a
    · subst hka
      simp [bumpAssoc]
    · have hbeq : (k == a) = false := beq_eq_false_iff_ne.mpr hka
      have hne : a ≠ k := Ne.symm hka
      simp only [bumpAssoc, hbeq, Bool.false_eq_true, if_false, List.map_cons]
      rw [ih]
      by_cases hmem : a ∈ List.map Prod.fst rest
      · simp [hmem, List.mem_cons, hne]
      · simp [hmem, List.mem_cons, hne]

theorem bump_keys_nodup (d : List (String × Nat)) (a : String)
    (h : (keysOf d).Nodup) : (keysOf (bumpAssoc d a)).Nodup := by
  rw [bump_keys]
  by_cases hmem : a ∈ keysOf d
  · simpa [hmem] using h
  · simp only [hmem, if_false, Bool.false_eq_true]
    rw [List.nodup_append]
    exact ⟨h, List.nodup_singleton a, by simpa using hmem⟩

theorem foldBump_keys_nodup (agents : List String) (d : List (String × Nat))
    (h : (keysOf d).Nodup) : (keysOf (agents.foldl bumpAssoc d)).Nodup := by
  induction agents generalizing d with
  | nil => exact h
  | cons a rest ih =>
    simp only [List.foldl_cons]
    exact ih _ (bump_keys_nodup d a h)

theorem buildTally_keys_nodup (capabilities_needed : List AgentCapability) :
    (keysOf (build_capability_tally capabilities_needed)).Nodup := by
  have aux : ∀ (caps : List AgentCapability) (d : List (String × Nat)),
      (keysOf d).Nodup →
      (keysOf (caps.foldl
        (fun d c => (get_agents_with_capability c).foldl bumpAssoc d) d)).Nodup := by
    intro caps
    induction caps with
    | nil => intro d h; exact h
    | cons c rest ih =>
      intro d h
      simp only [List.foldl_cons]
      exact ih _ (foldBump_keys_nodup _ d h)
  exact aux capabilities_needed [] (by simp [keysOf])

theorem lookup_mem_pairs (d : List (String × Nat)) (a : String) (v : Nat)
    (h : d.lookup a = some v) : (a, v) ∈ d := by
  induction d with
  | nil => simp [List.lookup] at h
  | cons p rest ih =>
    obtain ⟨k, w⟩ := p
    by_cases hak : a = k
    · subst hak
      simp [List.lookup] at h
      simp [h]
    · have hbeq : (a == k) = false := beq_eq_false_iff_ne.mpr hak
      simp only [List.lookup, hbeq] at h
      exact List.mem_cons_of_mem _ (ih h)

theorem mem_lookup_of_nodup_keys (d : List (String × Nat)) (a : String) (v : Nat)
    (hn : (keysOf d).Nodup) (h : (a, v) ∈ d) : d.lookup a = some v := by
  induction d with
  | nil => simp at h
  | cons p rest ih =>
    obtain ⟨k, w⟩ := p
    rcases List.mem_cons.mp h with heq | hmem
    · obtain ⟨h1, h2⟩ := Prod.mk.injEq .. ▸ heq
      subst h1; subst h2
      simp [List.lookup]
    · have hn' : (k :: List.map Prod.fst rest).Nodup := hn
      have hk : k ∉ List.map Prod.fst rest := (List.nodup_cons.mp hn').1
      have hnr : (List.map Prod.fst rest).Nodup := (List.nodup_cons.mp hn').2
      have ha : a ∈ List.map Prod.fst rest := List.mem_map.mpr ⟨(a, v), hmem, rfl⟩
      have hak : a ≠ k := fun hh => hk (hh ▸ ha)
      have hbeq : (a == k) = false := beq_eq_false_iff_ne.mpr hak
      simp only [List.lookup, hbeq]
      exact ih hnr hmem

theorem firstMax_eq_none (l : List (String × Nat)) :
    firstMax l = none ↔ l = [] := by
  cases l with
  | nil => simp [firstMax]
  | cons x rest =>
    simp only [firstMax]
    split <;> simp

theorem firstMax_mem (l : List (String × Nat)) (p : String × Nat)
    (h : firstMax l = some p) : p ∈ l := by
  induction l generalizing p with
  | nil => simp [firstMax] at h
  | cons x rest ih =>
    simp only [firstMax] at h
    cases hfm : firstMax rest with
    | none =>
      rw [hfm] at h
      simp at h
      simp [h]
    | some q =>
      rw [hfm] at h
      simp only [Option.some.injEq] at h
      by_cases hgt : q.2 > x.2
      · rw [if_pos hgt] at h
        exact List.mem_cons_of_mem _ (h ▸ ih q hfm)
      · rw [if_neg hgt] at h
        simp [← h]

theorem firstMax_ge (l : List (String × Nat)) (p : String × Nat)
    (h : firstMax l = some p) : ∀ q ∈ l, q.2 ≤ p.2 := by
  induction l generalizing p with
  | nil => simp [firstMax] at h
  | cons x rest ih =>
    intro q hq
    simp only [firstMax] at h
    cases hfm : firstMax rest with
    | none =>
      have hrest : rest = [] := (firstMax_eq_none rest).mp hfm
      subst hrest
      rw [hfm] at h
      simp at h hq
      subst h; subst hq
      exact le_refl _
    | some m =>
      rw [hfm] at h
      simp only [Option.some.injEq] at h
      have hm := ih m hfm
      rcases List.mem_cons.mp hq with hqx | hqr
      · subst hqx
        by_cases hgt : m.2 > q.2
        · rw [if_pos hgt] at h
          exact h ▸ le_of_lt hgt
        · rw [if_neg hgt] at h
          exact h ▸ le_refl _
      · by_cases hgt : m.2 > x.2
        · rw [if_pos hgt] at h
          exact h ▸ hm q hqr
        · rw [if_neg hgt] at h
          exact h ▸ le_trans (hm q hqr) (not_lt.mp hgt)

/-- Modelled from the spec's words, for comparison with the source (claim
C4's tie-break rule): tally every agent of `AGENT_CAPABILITIES`, keep those
declaring at least one needed capability, select the highest tally breaking
ties by table definition order, recommend only when the tally reaches half
the number of required capabilities. -/
def evaluate_capabilities_needed_tableorder
    (capabilities_needed : List AgentCapability) : Option String :=
  let tallies := AGENT_CAPABILITIES.map fun p => (p.1, tallyOf capabilities_needed p.1)
  let candidates := tallies.filter fun q => q.2 > 0
  match firstMax candidates with
  | none => none
  | some (best_agent, count) =>
    if 2 * count ≥ capabilities_needed.length then some best_agent else none

/-- C4 counterexample: the source breaks the Therapist/Coach tie for
`[COACHING, THERAPY]` by first insertion into the tally dict (capability
scan order), returning Coach, while the claim's table-definition-order
tie-break returns Therapist. -/
theorem evaluate_capabilities_tiebreak_cex :
    evaluate_capabilities_needed [.coaching, .therapy] = some "Coach" ∧
    evaluate_capabilities_needed_tableorder [.coaching, .therapy] = some "Therapist" ∧
    ("Coach" : String) ≠ "Therapist" := by
  refine ⟨by decide, by decide, by decide⟩

/-- C4 amended: the selected agent always attains the maximal tally of
declared required capabilities and is recommended only when twice its tally
reaches the number of required capabilities; ties are broken by first
insertion into the tally dict (the order agents are first reached scanning
the required capabilities in order, table order within one capability), so
`[THERAPY, COACHING]` still resolves to Therapist while `[COACHING,
THERAPY]` resolves to Coach. -/
theorem evaluate_capabilities_amended :
    (∀ (capabilities_needed : List AgentCapability) (a : String),
        evaluate_capabilities_needed capabilities_needed = some a →
          2 * tallyOf capabilities_needed a ≥ capabilities_needed.length ∧
          ∀ b : String, tallyOf capabilities_needed b ≤ tallyOf capabilities_needed a) ∧
    evaluate_capabilities_needed [.therapy, .coaching] = some "Therapist" ∧
    evaluate_capabilities_needed [.coaching, .therapy] = some "Coach" := by
  refine ⟨?_, by decide, by decide⟩
  intro caps a h
  unfold evaluate_capabilities_needed at h
  cases hfm : firstMax (build_capability_tally caps) with
  | none => rw [hfm] at h; simp at h
  | some p =>
    obtain ⟨best, count⟩ := p
    rw [hfm] at h
    have h' : (if 2 * count ≥ caps.length then some best else none) = some a := h
    by_cases hc : 2 * count ≥ caps.length
    · rw [if_pos hc] at h'
      have hba : best = a := Option.some.inj h'
      subst hba
      have hmem := firstMax_mem _ _ hfm
      have hlk := mem_lookup_of_nodup_keys _ _ _ (buildTally_keys_nodup caps) hmem
      have hval : lookupVal (build_capability_tally caps) best = count := by
        simp [lookupVal, hlk]
      have htally : tallyOf caps best = count := by
        rw [← buildTally_lookupVal, hval]
      constructor
      · rw [htally]; exact hc
      · intro b
        rw [htally, ← buildTally_lookupVal]
        cases hlb : (build_capability_tally caps).lookup b with
        | none => simp [lookupVal, hlb]
        | some v =>
          have hbmem := lookup_mem_pairs _ _ _ hlb
          have := firstMax_ge _ _ hfm (b, v) hbmem
          simpa [lookupVal, hlb] using this
    · rw [if_neg hc] at h'
      simp at h'

/-- Witness for C4 amended: the `[THERAPY, COACHING]` scenario discharged
through the general conjunct. -/
theorem evaluate_capabilities_amended_witness :
    2 * tallyOf [.therapy, .coaching] "Therapist" ≥
      ([.therapy, .coaching] : List AgentCapability).length ∧
    ∀ b : String, tallyOf [.therapy, .coaching] b ≤ tallyOf [.therapy, .coaching] "Therapist" :=
  evaluate_capabilities_amended.1 [.therapy, .coaching] "Therapist" (by decide)

/-- Storage with one snapshot whose content parses to the number `5`. -/
def db_int_snapshot : Db := ⟨[⟨"u", "EchoMind", 0, "5", .ok (.int 5)⟩]⟩

/-- Storage with one snapshot whose content fails to parse as JSON. -/
def db_parse_fail : Db := ⟨[⟨"u", "EchoMind", 0, "not json", .error ()⟩]⟩

/-- C7 counterexample: a snapshot whose parsed content is the integer `5`
makes `_read_general_memory` raise: the traversal's `part in current` on a
non-container raises `TypeError`, which the surrounding `except` clause
(`json.JSONDecodeError`, `AttributeError`, `KeyError`) does not catch. -/
theorem read_general_memory_raises_cex :
    _read_general_memory db_int_snapshot "u" "EchoMind" (.str "a") (.dict []) =
      .error .typeError := rfl

theorem traverse_path_ok_or_typeError (parts : List String) (current : JVal) :
    (∃ v, traverse_path current parts = .ok v) ∨
    traverse_path current parts = .error .typeError := by
  induction parts generalizing current with
  | nil => exact Or.inl ⟨current, rfl⟩
  | cons part rest ih =>
    cases current with
    | dict d =>
      cases hlk : d.lookup part with
      | none =>
        exact Or.inl ⟨.null, by simp [traverse_path, pyContains, hlk]⟩
      | some v =>
        have heq : traverse_path (.dict d) (part :: rest) = traverse_path v rest := by
          simp [traverse_path, pyContains, pyGetItem, hlk]
        rw [heq]
        exact ih v
    | list l =>
      by_cases hb : (l.any fun v => match v with | .str s => s == part | _ => false) = true
      · exact Or.inr (by simp [traverse_path, pyContains, pyGetItem, hb])
      · exact Or.inl ⟨.null, by simp [traverse_path, pyContains, hb]⟩
    | str s =>
      by_cases hb : infixOfList part.data s.data = true
      · exact Or.inr (by simp [traverse_path, pyContains, pyGetItem, String.toList, hb])
      · exact Or.inl ⟨.null, by simp [traverse_path, pyContains, String.toList, hb]⟩
    | null => exact Or.inr (by simp [traverse_path, pyContains])
    | bool b => exact Or.inr (by simp [traverse_path, pyContains])
    | int n => exact Or.inr (by simp [traverse_path, pyContains])
    | num q => exact Or.inr (by simp [traverse_path, pyContains])

/-- C7 amended: the general-memory read returns a value or null for every
parse failure and for every missing path segment in a dict node (the
traversal loop at a dict node whose lookup misses yields null immediately,
wherever it stands in the path, and so does the whole read when the parsed
content is a dict missing the first segment), and the only exception it
can raise is the `TypeError` produced when dot-path traversal meets a
non-dict node (a non-container, or a list/string whose membership test
succeeds) — that `TypeError` is not in the caught exception tuple. -/
theorem read_general_memory_amended :
    (∀ (db : Db) (user_id agent : String) (path filters : JVal),
        (∃ v, _read_general_memory db user_id agent path filters = .ok v) ∨
        _read_general_memory db user_id agent path filters = .error .typeError) ∧
    (∀ (db : Db) (user_id agent : String) (path filters : JVal)
        (snap : MemorySnapshotRow),
        latest_snapshot db user_id agent = some snap →
        snap.summary_parsed = .error () →
        (match path with | JVal.str s => s == "all" | _ => false) = false →
        _read_general_memory db user_id agent path filters = .ok .null) ∧
    (∀ (d : List (String × JVal)) (part : String) (rest : List String),
        d.lookup part = none →
        traverse_path (.dict d) (part :: rest) = .ok .null) ∧
    (∀ (db : Db) (user_id agent : String) (p : String) (filters : JVal)
        (snap : MemorySnapshotRow) (d : List (String × JVal))
        (part : String) (rest : List String),
        latest_snapshot db user_id agent = some snap →
        snap.summary_parsed = .ok (.dict d) →
        (p == "all") = false →
        splitOnDot p = part :: rest →
        d.lookup part = none →
        _read_general_memory db user_id agent (.str p) filters = .ok .null) := by
  have hmiss : ∀ (d : List (String × JVal)) (part : String) (rest : List String),
      d.lookup part = none →
      traverse_path (.dict d) (part :: rest) = .ok .null := by
    intro d part rest h
    simp [traverse_path, pyContains, h]
  refine ⟨?_, ?_, hmiss, ?_⟩
  · intro db user_id agent path filters
    rcases hsnap : latest_snapshot db user_id agent with _ | snap
    · exact Or.inl ⟨.null, by simp [_read_general_memory, hsnap]⟩
    · by_cases hall : (match path with | JVal.str s => s == "all" | _ => false) = true
      · exact Or.inl ⟨.str snap.summary_text, by simp [_read_general_memory, hsnap, hall]⟩
      · rw [Bool.not_eq_true] at hall
        rcases hparse : snap.summary_parsed with e | memory_dict
        · exact Or.inl ⟨.null, by simp [_read_general_memory, hsnap, hall, hparse]⟩
        · cases path with
          | str p =>
            have hall' : (p == "all") = false := hall
            have hred : _read_general_memory db user_id agent (.str p) filters =
                catch_traversal_errors (traverse_path memory_dict (splitOnDot p)) := by
              simp [_read_general_memory, hsnap, hall', hparse]
            rw [hred]
            rcases traverse_path_ok_or_typeError (splitOnDot p) memory_dict with ⟨v, hv⟩ | hv
            · rw [hv]
              exact Or.inl ⟨v, rfl⟩
            · rw [hv]
              exact Or.inr rfl
          | null => exact Or.inl ⟨.null, by simp [_read_general_memory, hsnap, hall, hparse]⟩
          | bool b => exact Or.inl ⟨.null, by simp [_read_general_memory, hsnap, hall, hparse]⟩
          | int n => exact Or.inl ⟨.null, by simp [_read_general_memory, hsnap, hall, hparse]⟩
          | num q => exact Or.inl ⟨.null, by simp [_read_general_memory, hsnap, hall, hparse]⟩
          | list l => exact Or.inl ⟨.null, by simp [_read_general_memory, hsnap, hall, hparse]⟩
          | dict d => exact Or.inl ⟨.null, by simp [_read_general_memory, hsnap, hall, hparse]⟩
  · intro db user_id agent path filters snap hsnap hparse hall
    simp [_read_general_memory, hsnap, hparse, hall]
  · intro db user_id agent p filters snap d part rest hsnap hparse hallf hsplit hlk
    have hred : _read_general_memory db user_id agent (.str p) filters =
        catch_traversal_errors (traverse_path (.dict d) (splitOnDot p)) := by
      simp [_read_general_memory, hsnap, hallf, hparse]
    rw [hred, hsplit, hmiss d part rest hlk]
    rfl

/-- Storage with one snapshot whose content parses to a dict without an
`"a"` key. -/
def db_dict_snapshot : Db := ⟨[⟨"u", "EchoMind", 0, "x json", .ok (.dict [("x", .int 1)])⟩]⟩

/-- Witness for C7 amended: every conjunct discharged concretely — the
parse-failure read yields null, a dict node missing the next segment yields
null mid-traversal, and a whole read over a dict content missing the first
segment yields null. -/
theorem read_general_memory_amended_witness :
    ((∃ v, _read_general_memory db_parse_fail "u" "EchoMind" (.str "a") (.dict []) = .ok v) ∨
      _read_general_memory db_parse_fail "u" "EchoMind" (.str "a") (.dict []) =
        .error .typeError) ∧
    _read_general_memory db_parse_fail "u" "EchoMind" (.str "a") (.dict []) = .ok .null ∧
    traverse_path (.dict [("x", .int 1)]) ["a"] = .ok .null ∧
    _read_general_memory db_dict_snapshot "u" "EchoMind" (.str "a") (.dict []) = .ok .null :=
  ⟨read_general_memory_amended.1 db_parse_fail "u" "EchoMind" (.str "a") (.dict []),
   read_general_memory_amended.2.1 db_parse_fail "u" "EchoMind" (.str "a") (.dict [])
     ⟨"u", "EchoMind", 0, "not json", .error ()⟩ rfl rfl rfl,
   read_general_memory_amended.2.2.1 [("x", .int 1)] "a" [] rfl,
   read_general_memory_amended.2.2.2 db_dict_snapshot "u" "EchoMind" "a" (.dict [])
     ⟨"u", "EchoMind", 0, "x json", .ok (.dict [("x", .int 1)])⟩ [("x", .int 1)]
     "a" [] rfl rfl rfl rfl rfl⟩

/-- An error response is always constructed successfully (the request id is
supplied, so `create_message` cannot raise), with this exact shape. -/
theorem create_error_response_ok (now : Int) (genId : String)
    (request : AgentMessage) (error_message : String) :
    _create_error_response now genId request error_message =
      .ok { id := genId, type := .response, timestamp := now,
            sender := "MemoryService", recipient := request.sender,
            content := [("status", .str "error"), ("error", .str error_message)],
            session_id := request.session_id, user_id := request.user_id,
            request_id := some request.id, priority := .normal,
            requires_response := false, ttl := none } := rfl

/-- C10: a truthy upper- or mixed-case variant of a known operation passes
the case-insensitive access check yet falls through the case-sensitive
dispatch to the "Invalid operation" error response. -/
theorem mixed_case_op_invalid (now : Int) (genId : String) (db : Db)
    (msg : AgentMessage) (op mt : String) (pv : JVal) (cat : MemoryCategory)
    (htype : msg.type = .memory_access)
    (hop : msg.content.lookup "operation" = some (.str op))
    (hmt : msg.content.lookup "memory_type" = some (.str mt))
    (hpath : msg.content.lookup "path" = some pv)
    (hpv : pyTruthy pv = true)
    (hmtok : map_memory_type_to_category mt = .ok cat)
    (_hlower : strLower op = "read" ∨ strLower op = "write" ∨
      strLower op = "update" ∨ strLower op = "delete")
    (hmixed : op ≠ strLower op)
    (hacc : check_access msg.sender cat op = true) :
    ∃ resp, (handle_memory_request now genId db msg).1 = .ok resp ∧
      resp.content.lookup "status" = some (.str "error") ∧
      resp.content.lookup "error" = some (.str ("Invalid operation: " ++ op)) := by
  have hopne : op ≠ "" := by
    intro h
    exact hmixed (by rw [h]; decide)
  have hmtne : mt ≠ "" := by
    intro h
    rw [h] at hmtok
    have hmap : map_memory_type_to_category "" =
        .error (.valueError ("Unknown memory type: " ++ "")) := rfl
    rw [hmap] at hmtok
    exact Except.noConfusion hmtok
  have hopE : op.isEmpty = false := by
    rw [Bool.eq_false_iff]
    intro h
    exact hopne ((String.isEmpty_iff op).mp h)
  have hmtE : mt.isEmpty = false := by
    rw [Bool.eq_false_iff]
    intro h
    exact hmtne ((String.isEmpty_iff mt).mp h)
  have hty : ¬ (msg.type ≠ MessageType.memory_access) := by simp [htype]
  have hops : pyTruthy (.str op) = true := by simp [pyTruthy, hopE]
  have hmts : pyTruthy (.str mt) = true := by simp [pyTruthy, hmtE]
  have hr : (op == "read") = false := by
    rw [beq_eq_false_iff_ne]
    intro h
    exact hmixed (by rw [h]; decide)
  have hw : (op == "write") = false := by
    rw [beq_eq_false_iff_ne]
    intro h
    exact hmixed (by rw [h]; decide)
  have hu : (op == "update") = false := by
    rw [beq_eq_false_iff_ne]
    intro h
    exact hmixed (by rw [h]; decide)
  have hd : (op == "delete") = false := by
    rw [beq_eq_false_iff_ne]
    intro h
    exact hmixed (by rw [h]; decide)
  have key : (handle_memory_request now genId db msg).1 =
      _create_error_response now genId msg ("Invalid operation: " ++ op) := by
    unfold handle_memory_request
    rw [if_neg hty]
    simp only [hop, hmt, hpath, truthyOpt, hops, hmts, hpv, hmtok,
      Bool.not_eq_true, Bool.and_self, Bool.and_true, Bool.true_and,
      Bool.not_true, Bool.not_false, hacc, hr, hw, hu, hd, Bool.false_eq_true,
      if_false, if_true, not_true, not_false_iff, Bool.not_eq_false]
  rw [key, create_error_response_ok]
  exact ⟨_, rfl, rfl, rfl⟩

/-- Concrete memory-access request with an upper-case operation. -/
def msg_read_upper : AgentMessage :=
  { id := "m1", type := .memory_access, timestamp := 0, sender := "EchoMind",
    recipient := "MemoryService",
    content := [("operation", .str "READ"), ("memory_type", .str "general"),
                ("path", .str "all")],
    session_id := "s", user_id := "u", request_id := none, priority := .normal,
    requires_response := false, ttl := none }

/-- Witness for C10: `READ` from EchoMind on general memory passes the
policy check yet yields the "Invalid operation: READ" error response. -/
theorem mixed_case_op_invalid_witness :
    ∃ resp, (handle_memory_request 0 "gen" ⟨[]⟩ msg_read_upper).1 = .ok resp ∧
      resp.content.lookup "status" = some (.str "error") ∧
      resp.content.lookup "error" = some (.str ("Invalid operation: " ++ "READ")) :=
  mixed_case_op_invalid 0 "gen" ⟨[]⟩ msg_read_upper "READ" "general" (.str "all")
    .general rfl rfl rfl rfl rfl rfl (Or.inl (by decide)) (by decide) (by decide)

/-- A payload field that is either a string or falsy (so `.lower()` cannot
hit a truthy non-string and raise `AttributeError`). -/
def strOrFalsy : Option JVal → Prop
  | some v => (∃ s, v = JVal.str s) ∨ pyTruthy v = false
  | none => True

/-- Shape every response of the memory manager must have. -/
def wellFormedResponse (msg resp : AgentMessage) : Prop :=
  resp.type = .response ∧ resp.sender = "MemoryService" ∧
  resp.recipient = msg.sender ∧ resp.request_id = some msg.id ∧
  (resp.content.lookup "status" = some (.str "success") ∨
   resp.content.lookup "status" = some (.str "error"))

theorem error_response_target (now : Int) (genId : String) (msg : AgentMessage)
    (e : String) :
    ∃ resp, _create_error_response now genId msg e = .ok resp ∧
      wellFormedResponse msg resp :=
  ⟨_, create_error_response_ok now genId msg e, rfl, rfl, rfl, rfl, Or.inr rfl⟩

theorem finish_request_total (now : Int) (genId : String) (msg m' : AgentMessage)
    (res : Except PyErr JVal) :
    ∃ resp, (finish_request now genId msg res m').1 = .ok resp ∧
      wellFormedResponse msg resp := by
  cases res with
  | ok r => exact ⟨_, rfl, rfl, rfl, rfl, rfl, Or.inl rfl⟩
  | error e => exact ⟨_, rfl, rfl, rfl, rfl, rfl, Or.inr rfl⟩

theorem map_err (s : String) (e : PyErr)
    (h : map_memory_type_to_category s = .error e) :
    e = .valueError ("Unknown memory type: " ++ s) := by
  unfold map_memory_type_to_category at h
  cases hlk : type_map.lookup (strLower s) with
  | some c => rw [hlk] at h; exact Except.noConfusion h
  | none => rw [hlk] at h; exact (Except.error.inj h).symm

/-- A success response is always constructed successfully (the request id
is supplied, so `create_message` cannot raise), with this exact shape. -/
theorem create_success_response_ok (now : Int) (genId : String)
    (request : AgentMessage) (r : JVal) :
    create_message now genId .response "MemoryService" request.sender
      [("status", .str "success"), ("result", r)]
      request.session_id request.user_id (some request.id) =
      .ok { id := genId, type := .response, timestamp := now,
            sender := "MemoryService", recipient := request.sender,
            content := [("status", .str "success"), ("result", r)],
            session_id := request.session_id, user_id := request.user_id,
            request_id := some request.id, priority := .normal,
            requires_response := false, ttl := none } := rfl

/-- C1 amended: for every memory-access message whose `operation` and
`memory_type` fields are strings or falsy, `handle_memory_request` returns
a well-formed response message (type `response`, from `MemoryService`, back
to the sender, carrying the request id) and raises nothing, and each listed
failure surfaces with `status: error` and its message: missing
operation/type/path, an unknown memory type, a policy denial, an unknown
operation, and a handler exception (possible only in the read dispatch —
the write/update/delete handlers are total, so their clauses hold
vacuously).  (A non-memory-access message raises `ValueError`, and a truthy
non-string `operation`/`memory_type` raises `AttributeError` at `.lower()`;
both escape the caller.) -/
theorem handle_memory_request_total (now : Int) (genId : String) (db : Db)
    (msg : AgentMessage)
    (htype : msg.type = .memory_access)
    (hopS : strOrFalsy (msg.content.lookup "operation"))
    (hmtS : strOrFalsy (msg.content.lookup "memory_type")) :
    ∃ resp, (handle_memory_request now genId db msg).1 = .ok resp ∧
      wellFormedResponse msg resp ∧
      ((truthyOpt (msg.content.lookup "operation") &&
          truthyOpt (msg.content.lookup "memory_type") &&
          truthyOpt (msg.content.lookup "path")) = false →
        resp.content = [("status", JVal.str "error"),
          ("error", JVal.str "Invalid memory request: missing required fields")]) ∧
      (∀ (mts : String) (e : PyErr),
        msg.content.lookup "memory_type" = some (.str mts) →
        (truthyOpt (msg.content.lookup "operation") &&
          truthyOpt (msg.content.lookup "memory_type") &&
          truthyOpt (msg.content.lookup "path")) = true →
        map_memory_type_to_category mts = .error e →
        resp.content = [("status", JVal.str "error"),
          ("error", JVal.str ("Unknown memory type: " ++ mts))]) ∧
      (∀ (mts ops : String) (cat : MemoryCategory),
        msg.content.lookup "memory_type" = some (.str mts) →
        msg.content.lookup "operation" = some (.str ops) →
        (truthyOpt (msg.content.lookup "operation") &&
          truthyOpt (msg.content.lookup "memory_type") &&
          truthyOpt (msg.content.lookup "path")) = true →
        map_memory_type_to_category mts = .ok cat →
        check_access msg.sender cat ops = false →
        resp.content = [("status", JVal.str "error"),
          ("error", JVal.str ("Access denied: " ++ msg.sender ++ " cannot " ++
            ops ++ " " ++ memoryCategoryStr cat ++ " memory"))]) ∧
      (∀ (mts ops : String) (cat : MemoryCategory),
        msg.content.lookup "memory_type" = some (.str mts) →
        msg.content.lookup "operation" = some (.str ops) →
        (truthyOpt (msg.content.lookup "operation") &&
          truthyOpt (msg.content.lookup "memory_type") &&
          truthyOpt (msg.content.lookup "path")) = true →
        map_memory_type_to_category mts = .ok cat →
        check_access msg.sender cat ops = true →
        ops ≠ "read" → ops ≠ "write" → ops ≠ "update" → ops ≠ "delete" →
        resp.content = [("status", JVal.str "error"),
          ("error", JVal.str ("Invalid operation: " ++ ops))]) ∧
      (∀ (mts ops : String) (cat : MemoryCategory) (e : PyErr),
        msg.content.lookup "memory_type" = some (.str mts) →
        msg.content.lookup "operation" = some (.str ops) →
        (truthyOpt (msg.content.lookup "operation") &&
          truthyOpt (msg.content.lookup "memory_type") &&
          truthyOpt (msg.content.lookup "path")) = true →
        map_memory_type_to_category mts = .ok cat →
        check_access msg.sender cat ops = true →
        ((ops = "read" ∧
            (_handle_read now db msg.sender mts
              ((msg.content.lookup "path").getD .null) msg.user_id
              ((msg.content.lookup "filters").getD (.dict []))).1 = .error e) ∨
         (ops = "write" ∧
            _handle_write msg.sender mts ((msg.content.lookup "path").getD .null)
              msg.user_id ((msg.content.lookup "data").getD .null) = .error e) ∨
         (ops = "update" ∧
            _handle_update msg.sender mts ((msg.content.lookup "path").getD .null)
              msg.user_id ((msg.content.lookup "data").getD .null) = .error e) ∨
         (ops = "delete" ∧
            _handle_delete msg.sender mts ((msg.content.lookup "path").getD .null)
              msg.user_id = .error e)) →
        resp.content = [("status", JVal.str "error"),
          ("error", JVal.str ("Error handling memory request: " ++ pyErrStr e))]) := by
  have hty : ¬ (msg.type ≠ MessageType.memory_access) := by simp [htype]
  unfold handle_memory_request
  rw [if_neg hty]
  by_cases hta : (truthyOpt (msg.content.lookup "operation") &&
      truthyOpt (msg.content.lookup "memory_type") &&
      truthyOpt (msg.content.lookup "path")) = true
  case neg =>
    rw [if_pos (by exact fun hc => hta hc)]
    refine ⟨_, create_error_response_ok now genId msg _,
      ⟨rfl, rfl, rfl, rfl, Or.inr rfl⟩, fun _ => rfl, ?_, ?_, ?_, ?_⟩
    · intro mts' e' hm' ht' hmap'
      exact absurd ht' hta
    · intro mts' ops' cat' hm' ho' ht' hmapok hcaf
      exact absurd ht' hta
    · intro mts' ops' cat' hm' ho' ht' hmapok hcat h1 h2 h3 h4
      exact absurd ht' hta
    · intro mts' ops' cat' e' hm' ho' ht' hmapok hcat hdisj
      exact absurd ht' hta
  case pos =>
    rw [if_neg (not_not_intro hta)]
    obtain ⟨h12, htp⟩ := (Bool.and_eq_true _ _).mp hta
    obtain ⟨hto, htm⟩ := (Bool.and_eq_true _ _).mp h12
    rcases hmtl : msg.content.lookup "memory_type" with _ | v
    · rw [hmtl] at htm
      exact absurd htm (by simp [truthyOpt])
    · rw [hmtl] at htm hmtS
      rcases hmtS with ⟨mts, rfl⟩ | hfal
      case inr => exact absurd (show pyTruthy v = true from htm) (by simp [hfal])
      case intro =>
        rcases hopl : msg.content.lookup "operation" with _ | w
        · rw [hopl] at hto
          exact absurd hto (by simp [truthyOpt])
        · rw [hopl] at hto hopS
          rcases hopS with ⟨ops, rfl⟩ | hfal
          case inr => exact absurd (show pyTruthy w = true from hto) (by simp [hfal])
          case intro =>
            simp only [hmtl, hopl]
            have hB : ∀ {C : Prop},
                (truthyOpt (some (JVal.str ops)) && truthyOpt (some (JVal.str mts)) &&
                  truthyOpt (msg.content.lookup "path")) = false → C := by
              intro C hfalse
              rw [hto, htm, htp] at hfalse
              exact Bool.noConfusion hfalse
            rcases hmap : map_memory_type_to_category mts with e | cat
            · have he := map_err _ _ hmap
              subst he
              refine ⟨_, create_error_response_ok now genId msg _,
                ⟨rfl, rfl, rfl, rfl, Or.inr rfl⟩, fun hfalse => hB hfalse,
                ?_, ?_, ?_, ?_⟩
              · intro mts' e' hm' ht' hmap'
                obtain rfl := JVal.str.inj (Option.some.inj hm')
                rfl
              · intro mts' ops' cat' hm' ho' ht' hmapok hcaf
                obtain rfl := JVal.str.inj (Option.some.inj hm')
                rw [hmap] at hmapok
                exact Except.noConfusion hmapok
              · intro mts' ops' cat' hm' ho' ht' hmapok hcat h1 h2 h3 h4
                obtain rfl := JVal.str.inj (Option.some.inj hm')
                rw [hmap] at hmapok
                exact Except.noConfusion hmapok
              · intro mts' ops' cat' e' hm' ho' ht' hmapok hcat hdisj
                obtain rfl := JVal.str.inj (Option.some.inj hm')
                rw [hmap] at hmapok
                exact Except.noConfusion hmapok
            · dsimp only
              by_cases hca : check_access msg.sender cat ops = true
              case neg =>
                rw [if_pos (by exact fun hc => hca hc)]
                refine ⟨_, create_error_response_ok now genId msg _,
                  ⟨rfl, rfl, rfl, rfl, Or.inr rfl⟩, fun hfalse => hB hfalse,
                  ?_, ?_, ?_, ?_⟩
                · intro mts' e' hm' ht' hmap'
                  obtain rfl := JVal.str.inj (Option.some.inj hm')
                  rw [hmap] at hmap'
                  exact Except.noConfusion hmap'
                · intro mts' ops' cat' hm' ho' ht' hmapok hcaf
                  obtain rfl := JVal.str.inj (Option.some.inj hm')
                  obtain rfl := JVal.str.inj (Option.some.inj ho')
                  obtain rfl := Except.ok.inj (hmap.symm.trans hmapok)
                  rfl
                · intro mts' ops' cat' hm' ho' ht' hmapok hcat h1 h2 h3 h4
                  obtain rfl := JVal.str.inj (Option.some.inj hm')
                  obtain rfl := JVal.str.inj (Option.some.inj ho')
                  obtain rfl := Except.ok.inj (hmap.symm.trans hmapok)
                  exact absurd hcat hca
                · intro mts' ops' cat' e' hm' ho' ht' hmapok hcat hdisj
                  obtain rfl := JVal.str.inj (Option.some.inj hm')
                  obtain rfl := JVal.str.inj (Option.some.inj ho')
                  obtain rfl := Except.ok.inj (hmap.symm.trans hmapok)
                  exact absurd hcat hca
              case pos =>
                rw [if_neg (not_not_intro hca)]
                by_cases hrd : (ops == "read") = true
                · obtain rfl : ops = "read" := eq_of_beq hrd
                  rw [if_pos hrd]
                  obtain ⟨res, f, hrf⟩ : ∃ res f,
                      _handle_read now db msg.sender mts
                        ((msg.content.lookup "path").getD .null) msg.user_id
                        ((msg.content.lookup "filters").getD (.dict [])) = (res, f) :=
                    ⟨_, _, rfl⟩
                  simp only [hrf]
                  cases res with
                  | ok r =>
                    refine ⟨_, create_success_response_ok now genId msg r,
                      ⟨rfl, rfl, rfl, rfl, Or.inl rfl⟩, fun hfalse => hB hfalse,
                      ?_, ?_, ?_, ?_⟩
                    · intro mts' e' hm' ht' hmap'
                      obtain rfl := JVal.str.inj (Option.some.inj hm')
                      rw [hmap] at hmap'
                      exact Except.noConfusion hmap'
                    · intro mts' ops' cat' hm' ho' ht' hmapok hcaf
                      obtain rfl := JVal.str.inj (Option.some.inj ho')
                      obtain rfl := JVal.str.inj (Option.some.inj hm')
                      obtain rfl := Except.ok.inj (hmap.symm.trans hmapok)
                      exact Bool.noConfusion (hca.symm.trans hcaf)
                    · intro mts' ops' cat' hm' ho' ht' hmapok hcat hnr h2 h3 h4
                      obtain rfl := JVal.str.inj (Option.some.inj ho')
                      exact absurd rfl hnr
                    · intro mts' ops' cat' e' hm' ho' ht' hmapok hcat hdisj
                      obtain rfl := JVal.str.inj (Option.some.inj hm')
                      obtain rfl := JVal.str.inj (Option.some.inj ho')
                      rcases hdisj with ⟨_, hre⟩ | ⟨hweq, _⟩ | ⟨hueq, _⟩ | ⟨hdeq, _⟩
                      · rw [hrf] at hre
                        exact Except.noConfusion hre
                      · exact absurd hweq (by decide)
                      · exact absurd hueq (by decide)
                      · exact absurd hdeq (by decide)
                  | error e2 =>
                    refine ⟨_, create_error_response_ok now genId msg _,
                      ⟨rfl, rfl, rfl, rfl, Or.inr rfl⟩, fun hfalse => hB hfalse,
                      ?_, ?_, ?_, ?_⟩
                    · intro mts' e' hm' ht' hmap'
                      obtain rfl := JVal.str.inj (Option.some.inj hm')
                      rw [hmap] at hmap'
                      exact Except.noConfusion hmap'
                    · intro mts' ops' cat' hm' ho' ht' hmapok hcaf
                      obtain rfl := JVal.str.inj (Option.some.inj ho')
                      obtain rfl := JVal.str.inj (Option.some.inj hm')
                      obtain rfl := Except.ok.inj (hmap.symm.trans hmapok)
                      exact Bool.noConfusion (hca.symm.trans hcaf)
                    · intro mts' ops' cat' hm' ho' ht' hmapok hcat hnr h2 h3 h4
                      obtain rfl := JVal.str.inj (Option.some.inj ho')
                      exact absurd rfl hnr
                    · intro mts' ops' cat' e' hm' ho' ht' hmapok hcat hdisj
                      obtain rfl := JVal.str.inj (Option.some.inj hm')
                      obtain rfl := JVal.str.inj (Option.some.inj ho')
                      rcases hdisj with ⟨_, hre⟩ | ⟨hweq, _⟩ | ⟨hueq, _⟩ | ⟨hdeq, _⟩
                      · rw [hrf] at hre
                        obtain rfl := Except.error.inj hre
                        rfl
                      · exact absurd hweq (by decide)
                      · exact absurd hueq (by decide)
                      · exact absurd hdeq (by decide)
                · rw [if_neg (by simpa using hrd)]
                  have hnrd : ops ≠ "read" := fun h => hrd (by subst h; decide)
                  by_cases hwr : (ops == "write") = true
                  · obtain rfl : ops = "write" := eq_of_beq hwr
                    rw [if_pos hwr]
                    refine ⟨_, create_success_response_ok now genId msg _,
                      ⟨rfl, rfl, rfl, rfl, Or.inl rfl⟩, fun hfalse => hB hfalse,
                      ?_, ?_, ?_, ?_⟩
                    · intro mts' e' hm' ht' hmap'
                      obtain rfl := JVal.str.inj (Option.some.inj hm')
                      rw [hmap] at hmap'
                      exact Except.noConfusion hmap'
                    · intro mts' ops' cat' hm' ho' ht' hmapok hcaf
                      obtain rfl := JVal.str.inj (Option.some.inj ho')
                      obtain rfl := JVal.str.inj (Option.some.inj hm')
                      obtain rfl := Except.ok.inj (hmap.symm.trans hmapok)
                      exact Bool.noConfusion (hca.symm.trans hcaf)
                    · intro mts' ops' cat' hm' ho' ht' hmapok hcat h1 hnw h3 h4
                      obtain rfl := JVal.str.inj (Option.some.inj ho')
                      exact absurd rfl hnw
                    · intro mts' ops' cat' e' hm' ho' ht' hmapok hcat hdisj
                      obtain rfl := JVal.str.inj (Option.some.inj hm')
                      obtain rfl := JVal.str.inj (Option.some.inj ho')
                      rcases hdisj with ⟨hreq, _⟩ | ⟨_, hwe⟩ | ⟨hueq, _⟩ | ⟨hdeq, _⟩
                      · exact absurd hreq (by decide)
                      · exact Except.noConfusion hwe
                      · exact absurd hueq (by decide)
                      · exact absurd hdeq (by decide)
                  · rw [if_neg (by simpa using hwr)]
                    have hnwr : ops ≠ "write" := fun h => hwr (by subst h; decide)
                    by_cases hup : (ops == "update") = true
                    · obtain rfl : ops = "update" := eq_of_beq hup
                      rw [if_pos hup]
                      refine ⟨_, create_success_response_ok now genId msg _,
                        ⟨rfl, rfl, rfl, rfl, Or.inl rfl⟩, fun hfalse => hB hfalse,
                        ?_, ?_, ?_, ?_⟩
                      · intro mts' e' hm' ht' hmap'
                        obtain rfl := JVal.str.inj (Option.some.inj hm')
                        rw [hmap] at hmap'
                        exact Except.noConfusion hmap'
                      · intro mts' ops' cat' hm' ho' ht' hmapok hcaf
                        obtain rfl := JVal.str.inj (Option.some.inj ho')
                        obtain rfl := JVal.str.inj (Option.some.inj hm')
                        obtain rfl := Except.ok.inj (hmap.symm.trans hmapok)
                        exact Bool.noConfusion (hca.symm.trans hcaf)
                      · intro mts' ops' cat' hm' ho' ht' hmapok hcat h1 h2 hnu h4
                        obtain rfl := JVal.str.inj (Option.some.inj ho')
                        exact absurd rfl hnu
                      · intro mts' ops' cat' e' hm' ho' ht' hmapok hcat hdisj
                        obtain rfl := JVal.str.inj (Option.some.inj hm')
                        obtain rfl := JVal.str.inj (Option.some.inj ho')
                        rcases hdisj with ⟨hreq, _⟩ | ⟨hweq, _⟩ | ⟨_, hue⟩ | ⟨hdeq, _⟩
                        · exact absurd hreq (by decide)
                        · exact absurd hweq (by decide)
                        · exact Except.noConfusion hue
                        · exact absurd hdeq (by decide)
                    · rw [if_neg (by simpa using hup)]
                      have hnup : ops ≠ "update" := fun h => hup (by subst h; decide)
                      by_cases hde : (ops == "delete") = true
                      · obtain rfl : ops = "delete" := eq_of_beq hde
                        rw [if_pos hde]
                        refine ⟨_, create_success_response_ok now genId msg _,
                          ⟨rfl, rfl, rfl, rfl, Or.inl rfl⟩, fun hfalse => hB hfalse,
                          ?_, ?_, ?_, ?_⟩
                        · intro mts' e' hm' ht' hmap'
                          obtain rfl := JVal.str.inj (Option.some.inj hm')
                          rw [hmap] at hmap'
                          exact Except.noConfusion hmap'
                        · intro mts' ops' cat' hm' ho' ht' hmapok hcaf
                          obtain rfl := JVal.str.inj (Option.some.inj ho')
                          obtain rfl := JVal.str.inj (Option.some.inj hm')
                          obtain rfl := Except.ok.inj (hmap.symm.trans hmapok)
                          exact Bool.noConfusion (hca.symm.trans hcaf)
                        · intro mts' ops' cat' hm' ho' ht' hmapok hcat h1 h2 h3 hnd
                          obtain rfl := JVal.str.inj (Option.some.inj ho')
                          exact absurd rfl hnd
                        · intro mts' ops' cat' e' hm' ho' ht' hmapok hcat hdisj
                          obtain rfl := JVal.str.inj (Option.some.inj hm')
                          obtain rfl := JVal.str.inj (Option.some.inj ho')
                          rcases hdisj with ⟨hreq, _⟩ | ⟨hweq, _⟩ | ⟨hueq, _⟩ | ⟨_, hdee⟩
                          · exact absurd hreq (by decide)
                          · exact absurd hweq (by decide)
                          · exact absurd hueq (by decide)
                          · exact Except.noConfusion hdee
                      · rw [if_neg (by simpa using hde)]
                        have hnde : ops ≠ "delete" := fun h => hde (by subst h; decide)
                        refine ⟨_, create_error_response_ok now genId msg _,
                          ⟨rfl, rfl, rfl, rfl, Or.inr rfl⟩, fun hfalse => hB hfalse,
                          ?_, ?_, ?_, ?_⟩
                        · intro mts' e' hm' ht' hmap'
                          obtain rfl := JVal.str.inj (Option.some.inj hm')
                          rw [hmap] at hmap'
                          exact Except.noConfusion hmap'
                        · intro mts' ops' cat' hm' ho' ht' hmapok hcaf
                          obtain rfl := JVal.str.inj (Option.some.inj ho')
                          obtain rfl := JVal.str.inj (Option.some.inj hm')
                          obtain rfl := Except.ok.inj (hmap.symm.trans hmapok)
                          exact Bool.noConfusion (hca.symm.trans hcaf)
                        · intro mts' ops' cat' hm' ho' ht' hmapok hcat h1 h2 h3 h4
                          obtain rfl := JVal.str.inj (Option.some.inj ho')
                          obtain rfl := JVal.str.inj (Option.some.inj hm')
                          rfl
                        · intro mts' ops' cat' e' hm' ho' ht' hmapok hcat hdisj
                          obtain rfl := JVal.str.inj (Option.some.inj ho')
                          rcases hdisj with ⟨hreq, _⟩ | ⟨hweq, _⟩ | ⟨hueq, _⟩ | ⟨hdeq, _⟩
                          · exact absurd hreq hnrd
                          · exact absurd hweq hnwr
                          · exact absurd hueq hnup
                          · exact absurd hdeq hnde

/-- A concrete memory-access request with an unknown memory type. -/
def msg_unknown_type : AgentMessage :=
  { id := "m1", type := .memory_access, timestamp := 0, sender := "EchoMind",
    recipient := "MemoryService",
    content := [("operation", .str "read"), ("memory_type", .str "unknown_type"),
                ("path", .str "all")],
    session_id := "s", user_id := "u", request_id := none, priority := .normal,
    requires_response := false, ttl := none }

/-- Witness for C1 amended at a concrete request: an unknown memory type
yields a well-formed response whose content is exactly the
`status: error` / `Unknown memory type` payload. -/
theorem handle_memory_request_total_witness :
    ∃ resp, (handle_memory_request 0 "gen" ⟨[]⟩ msg_unknown_type).1 = .ok resp ∧
      wellFormedResponse msg_unknown_type resp ∧
      resp.content = [("status", JVal.str "error"),
        ("error", JVal.str ("Unknown memory type: " ++ "unknown_type"))] := by
  obtain ⟨resp, h1, h2, _ha, hunk, _hc, _hd, _he⟩ :=
    handle_memory_request_total 0 "gen" ⟨[]⟩ msg_unknown_type rfl
      (Or.inl ⟨"read", rfl⟩) (Or.inl ⟨"unknown_type", rfl⟩)
  exact ⟨resp, h1, h2,
    hunk "unknown_type" (.valueError ("Unknown memory type: " ++ "unknown_type"))
      rfl (by decide) rfl⟩

/-- A concrete message of the wrong type. -/
def msg_query : AgentMessage :=
  { id := "m1", type := .query, timestamp := 0, sender := "EchoMind",
    recipient := "MemoryService", content := [], session_id := "s",
    user_id := "u", request_id := none, priority := .normal,
    requires_response := false, ttl := none }

/-- C1 counterexample: on a message whose type is not memory-access,
`handle_memory_request` raises `ValueError` to its caller instead of
returning a `status: error` response. -/
theorem handle_memory_request_raises_cex :
    (handle_memory_request 0 "gen" ⟨[]⟩ msg_query).1 =
      .error (.valueError
        ("Expected MEMORY_ACCESS message, got " ++ messageTypeStr .query)) := rfl

theorem finish_request_snd (now : Int) (genId : String) (msg m' : AgentMessage)
    (res : Except PyErr JVal) : (finish_request now genId msg res m').2 = m' := by
  cases res <;> rfl

/-- The request message after `handle_memory_request` is either untouched or
has its content's `filters` binding (which must have been present) replaced. -/
theorem handle_snd_cases (now : Int) (genId : String) (db : Db)
    (msg : AgentMessage) :
    (handle_memory_request now genId db msg).2 = msg ∨
    ∃ v f, msg.content.lookup "filters" = some v ∧
      (handle_memory_request now genId db msg).2 =
        { msg with content := assocSet msg.content "filters" f } := by
  simp only [handle_memory_request]
  split
  · exact Or.inl rfl
  · split
    · exact Or.inl rfl
    · split
      · split
        · exact Or.inl rfl
        · exact Or.inl rfl
        · split
          · split
            · exact Or.inl rfl
            · split
              · rw [finish_request_snd]
                rcases hf : msg.content.lookup "filters" with _ | v
                · exact Or.inl rfl
                · exact Or.inr ⟨v, _, rfl, rfl⟩
              · split
                · exact Or.inl (finish_request_snd _ _ _ _ _)
                · split
                  · exact Or.inl (finish_request_snd _ _ _ _ _)
                  · split
                    · exact Or.inl (finish_request_snd _ _ _ _ _)
                    · exact Or.inl rfl
          · exact Or.inl rfl
      · exact Or.inl rfl

theorem assocSet_lookup_ne (d : List (String × JVal)) (k k' : String) (v : JVal)
    (h : k' ≠ k) : (assocSet d k v).lookup k' = d.lookup k' := by
  induction d with
  | nil =>
    have hf : (k' == k) = false := beq_eq_false_iff_ne.mpr h
    simp [assocSet, List.lookup, hf]
  | cons p rest ih =>
    obtain ⟨kk, vv⟩ := p
    by_cases hkk : kk = k
    · subst hkk
      have hf : (k' == kk) = false := beq_eq_false_iff_ne.mpr h
      simp [assocSet, List.lookup, hf]
    · have hf : (kk == k) = false := beq_eq_false_iff_ne.mpr hkk
      simp only [assocSet, hf, Bool.false_eq_true, if_false]
      by_cases hk' : k' = kk
      · subst hk'
        simp [List.lookup]
      · have hf2 : (k' == kk) = false := beq_eq_false_iff_ne.mpr hk'
        simp only [List.lookup, hf2]
        exact ih

/-- C9 amended: `handle_memory_request` leaves every field of the request
message unchanged except, possibly, the `filters` binding of its content:
all other fields are equal after the call, every content key other than
`filters` keeps its value, and a request whose content has no `filters`
key comes back entirely unchanged (the read dispatch then mutates only the
fresh default dict, not the caller's message). -/
theorem handle_memory_request_frame (now : Int) (genId : String) (db : Db)
    (msg : AgentMessage) :
    ((handle_memory_request now genId db msg).2.id = msg.id ∧
     (handle_memory_request now genId db msg).2.type = msg.type ∧
     (handle_memory_request now genId db msg).2.timestamp = msg.timestamp ∧
     (handle_memory_request now genId db msg).2.sender = msg.sender ∧
     (handle_memory_request now genId db msg).2.recipient = msg.recipient ∧
     (handle_memory_request now genId db msg).2.session_id = msg.session_id ∧
     (handle_memory_request now genId db msg).2.user_id = msg.user_id ∧
     (handle_memory_request now genId db msg).2.request_id = msg.request_id ∧
     (handle_memory_request now genId db msg).2.priority = msg.priority ∧
     (handle_memory_request now genId db msg).2.requires_response = msg.requires_response ∧
     (handle_memory_request now genId db msg).2.ttl = msg.ttl) ∧
    (∀ k, k ≠ "filters" →
      (handle_memory_request now genId db msg).2.content.lookup k =
        msg.content.lookup k) ∧
    (msg.content.lookup "filters" = none →
      (handle_memory_request now genId db msg).2 = msg) := by
  rcases handle_snd_cases now genId db msg with h | ⟨v, f, hv, h⟩
  · rw [h]
    exact ⟨⟨rfl, rfl, rfl, rfl, rfl, rfl, rfl, rfl, rfl, rfl, rfl⟩,
      fun k _ => rfl, fun _ => rfl⟩
  · rw [h]
    refine ⟨⟨rfl, rfl, rfl, rfl, rfl, rfl, rfl, rfl, rfl, rfl, rfl⟩,
      fun k hk => assocSet_lookup_ne msg.content "filters" k f hk, fun habs => ?_⟩
    rw [hv] at habs
    exact Option.noConfusion habs

/-- Witness for C9 amended: a request without a `filters` key comes back
unchanged from a concrete call. -/
theorem handle_memory_request_frame_witness :
    (handle_memory_request 0 "gen" ⟨[]⟩ msg_read_upper).2 = msg_read_upper :=
  (handle_memory_request_frame 0 "gen" ⟨[]⟩ msg_read_upper).2.2 rfl

/-- Concrete read request from Bridge carrying an empty `filters` dict. -/
def msg_bridge_filters : AgentMessage :=
  { id := "m1", type := .memory_access, timestamp := 0, sender := "Bridge",
    recipient := "MemoryService",
    content := [("operation", .str "read"), ("memory_type", .str "general"),
                ("path", .str "all"), ("filters", .dict [])],
    session_id := "s", user_id := "u", request_id := none, priority := .normal,
    requires_response := false, ttl := none }

/-- C9 counterexample: a read from Bridge (scope `recent`, so a cutoff
exists) with a caller-supplied `filters` dict lacking `since` comes back
mutated — the default `since` filter is written into the caller's message. -/
theorem handle_memory_request_mutates_cex :
    (handle_memory_request 0 "gen" ⟨[]⟩ msg_bridge_filters).2 ≠ msg_bridge_filters := by
  intro h
  have h2 := congrArg
    (fun m => (match m.content.lookup "filters" with
               | some (JVal.dict l) => l.length
               | _ => 0)) h
  exact absurd h2 (by decide)
